import Mathlib

/-!
# Verification of the homepage window manager and contribution heatmap

Shallow embedding of the relevant parts of `src/js/window.js` and
`src/js/github-activity.js`, together with theorems settling the frozen
claims about them.

Conventions of the embedding:

* CSS pixel quantities are modelled as rationals (`ℚ`); browser viewport
  width/height are parameters `W H`.
* A JavaScript `Window` instance is a `Win` record; the identity of the
  object is modelled by a numeric `id` assigned at creation.  Mutating a
  method's `this` becomes updating the registry entry with that id.
* The `WindowManager`'s `snapZones` object is the pair of fields
  `leftSlot` / `rightSlot` holding the id of the owning window, if any.
* DOM-only effects (opacity transitions, cursor styles, appending snap-zone
  overlay elements) are irrelevant to every claim and are not modelled;
  each definition's doc comment cites the source lines it embeds.
-/

namespace Homepage

/-- `CONFIG.SNAP_THRESHOLD` (window.js line 5): 50 px. -/
def SNAP_THRESHOLD : ℚ := 50

/-- `CONFIG.Z_INDEX_BASE` (window.js line 9). -/
def Z_INDEX_BASE : Nat := 10

/-- The `SnapZone` enumeration (window.js lines 20-23). -/
inductive SnapZone where
  | left
  | right
deriving DecidableEq, Repr

/-- One `Window` instance (window.js lines 26-316), restricted to the fields
the claims are about: its snap-slot membership (`this.snapZone`), its
rendered bounding box (`getBoundingClientRect`: position `x`,`y` and size
`w`,`h`, in pixels), its stacking order (`element.style.zIndex`), and the
`this.isDragging` flag.  The `id` models object identity. -/
structure Win where
  id : Nat
  snapZone : Option SnapZone
  x : ℚ
  y : ℚ
  w : ℚ
  h : ℚ
  z : Nat
  isDragging : Bool
deriving DecidableEq, Repr

/-- The `WindowManager` state (window.js lines 319-327): the registry
`this.windows` (insertion ordered), the two snap slots (`this.snapZones`,
holding the owning window's id), and `this.nextZIndex`.  `nextId` is the
model's source of fresh object identities for `createWindow`. -/
structure WMState where
  windows : List Win
  leftSlot : Option Nat
  rightSlot : Option Nat
  nextZIndex : Nat
  nextId : Nat
deriving DecidableEq, Repr

/-- Look up the live `Window` object with identity `i` in the registry. -/
def getWin (s : WMState) (i : Nat) : Option Win :=
  s.windows.find? (fun w => w.id == i)

/-- Read a snap slot of `this.snapZones` (window.js lines 322-325). -/
def slotGet (s : WMState) : SnapZone → Option Nat
  | .left => s.leftSlot
  | .right => s.rightSlot

/-- Write a snap slot of `this.snapZones`. -/
def setSlot (s : WMState) : SnapZone → Option Nat → WMState
  | .left, v => { s with leftSlot := v }
  | .right, v => { s with rightSlot := v }

/-- `WindowManager.isSnapZoneOccupied` (window.js lines 336-338). -/
def isSnapZoneOccupied (s : WMState) (z : SnapZone) : Bool :=
  (slotGet s z).isSome

/-- `WindowManager.occupySnapZone` (window.js lines 340-342): unconditional
overwrite of the slot's owner. -/
def occupySnapZone (s : WMState) (z : SnapZone) (i : Nat) : WMState :=
  setSlot s z (some i)

/-- `WindowManager.freeSnapZone` (window.js lines 344-346). -/
def freeSnapZone (s : WMState) (z : SnapZone) : WMState :=
  setSlot s z none

/-- Mutate the `Window` object with identity `i` in place. -/
def updateWin (s : WMState) (i : Nat) (f : Win → Win) : WMState :=
  { s with windows := s.windows.map fun w => if w.id == i then f w else w }

/-- `Window.clearSnapZone` (window.js lines 251-256): if this window holds a
slot, free that slot in the manager and null out `this.snapZone`. -/
def clearSnapZone (s : WMState) (i : Nat) : WMState :=
  match getWin s i with
  | none => s
  | some win =>
    match win.snapZone with
    | some z => updateWin (freeSnapZone s z) i (fun w => { w with snapZone := none })
    | none => s

/-- The geometry/zone mutation of `Window.snapToSide` (window.js lines
232-244) on the window itself: `this.snapZone = zone`, width
`calc(50% - 24px)`, height `calc(100vh - 64px)`, left `16px` or
`calc(50% + 8px)`, top `32px` (CONFIG lines 11-14), resolved against
viewport extents `W`, `H`. -/
def snapGeom (win : Win) (z : SnapZone) (W H : ℚ) : Win :=
  { win with
      snapZone := some z
      w := W / 2 - 24
      h := H - 64
      x := if z = .left then 16 else W / 2 + 8
      y := 32 }

/-- `Window.snapToSide` (window.js lines 232-249): record the zone on the
window, report occupancy to the manager, and move to the slot's fixed rect. -/
def snapToSide (s : WMState) (i : Nat) (z : SnapZone) (W H : ℚ) : WMState :=
  occupySnapZone (updateWin s i (fun w => snapGeom w z W H)) z i

/-- `Window.attemptSnap` (window.js lines 216-230): read the final bounding
box, test the left edge against the 50 px threshold on each side, clear this
window's previous slot, then commit the first free proximal side, if any. -/
def attemptSnap (s : WMState) (i : Nat) (W H : ℚ) : WMState :=
  match getWin s i with
  | none => s
  | some win =>
    let isNearLeft : Bool := decide (win.x ≤ SNAP_THRESHOLD)
    let isNearRight : Bool := decide (win.x ≥ W - win.w - SNAP_THRESHOLD)
    let s1 := clearSnapZone s i
    if isNearLeft && !(isSnapZoneOccupied s1 .left) then
      snapToSide s1 i .left W H
    else if isNearRight && !(isSnapZoneOccupied s1 .right) then
      snapToSide s1 i .right W H
    else s1

/-- `Window.constrainToViewport` (window.js lines 179-190): clamp a candidate
position into `[0, viewport − size]` on both axes. -/
def constrainToViewport (win : Win) (W H x y : ℚ) : ℚ × ℚ :=
  (max 0 (min x (W - win.w)), max 0 (min y (H - win.h)))

/-- The position update of `Window.handleMouseMove` (window.js lines 149-159)
on the dragged window: `updatePosition` with the constrained candidate.
`px`, `py` stand for `e.clientX - this.dragStartX` / `e.clientY -
this.dragStartY`; since the pointer coordinates are arbitrary, the candidate
position is an arbitrary rational pair. -/
def dragMove (win : Win) (W H px py : ℚ) : Win :=
  let c := constrainToViewport win W H px py
  { win with x := c.1, y := c.2 }

/-- `Window.handleMouseMove` (window.js lines 149-159) at the manager level:
a no-op unless this window is mid-drag. -/
def handleMouseMove (s : WMState) (i : Nat) (px py W H : ℚ) : WMState :=
  match getWin s i with
  | none => s
  | some win =>
    if win.isDragging then updateWin s i (fun w => dragMove w W H px py) else s

/-- `Window.handleMouseDown` (window.js lines 126-147), state-relevant part:
set `this.isDragging`, then `this.clearSnapZone()`.  The subsequent
`if (this.snapZone)` block (lines 132-136) is evaluated *after* the clear
and therefore never fires; see `handleMouseDownStyle` below for the faithful
embedding of that styling branch.  The drag-offset capture stores no
state this model needs (pointer-move candidates are arbitrary). -/
def handleMouseDown (s : WMState) (i : Nat) : WMState :=
  clearSnapZone (updateWin s i (fun w => { w with isDragging := true })) i

/-- `Window.handleMouseUp` (window.js lines 161-167): if mid-drag, run
`attemptSnap` and reset the drag state. -/
def handleMouseUp (s : WMState) (i : Nat) (W H : ℚ) : WMState :=
  match getWin s i with
  | none => s
  | some win =>
    if win.isDragging then
      updateWin (attemptSnap s i W H) i (fun w => { w with isDragging := false })
    else s

/-- `Window.center` (window.js lines 258-286), slot-relevant part: release
any held slot.  The centered geometry itself (`left:50%`,
`transform:translateX(-50%)`, `width:100%`, `maxWidth:1024px`, `height:auto`)
is resolved by percentage-based CSS and content height, outside this numeric
model; no claim depends on it. -/
def center (s : WMState) (i : Nat) : WMState :=
  clearSnapZone s i

/-- `Window.remove` (window.js lines 288-300) followed by
`WindowManager.removeWindow` (lines 352-357): release any held slot, then
splice this window out of the registry (`indexOf`/`splice` removes the first
occurrence). -/
def removeWindow (s : WMState) (i : Nat) : WMState :=
  { clearSnapZone s i with
      windows := (clearSnapZone s i).windows.eraseP (fun w => w.id == i) }

/-- `WindowManager.createWindow` (window.js lines 329-334): construct a
`Window` (constructor lines 27-45: `this.snapZone = null`,
`this.isDragging = false`), push it onto the registry, and assign it
`this.nextZIndex++`.  The initial bounding box `x y w h` comes from the
template markup and is arbitrary. -/
def createWindow (s : WMState) (x y w h : ℚ) : WMState :=
  { s with
      windows := s.windows ++ [⟨s.nextId, none, x, y, w, h, s.nextZIndex, false⟩]
      nextZIndex := s.nextZIndex + 1
      nextId := s.nextId + 1 }

/-- `WindowManager.bringToFront` (window.js lines 348-350):
`window.setZIndex(this.nextZIndex++)`. -/
def bringToFront (s : WMState) (i : Nat) : WMState :=
  updateWin { s with nextZIndex := s.nextZIndex + 1 } i
    (fun w => { w with z := s.nextZIndex })

/-- The operations a user gesture can invoke on the window system.  Methods
of a `Window` are addressed by the receiving object's identity. -/
inductive WMOp where
  | create (x y w h : ℚ)
  | mouseDown (i : Nat)
  | mouseMove (i : Nat) (px py W H : ℚ)
  | mouseUp (i : Nat) (W H : ℚ)
  | center (i : Nat)
  | remove (i : Nat)
  | front (i : Nat)

/-- One event-loop callback. -/
def step (s : WMState) : WMOp → WMState
  | .create x y w h => createWindow s x y w h
  | .mouseDown i => handleMouseDown s i
  | .mouseMove i px py W H => handleMouseMove s i px py W H
  | .mouseUp i W H => handleMouseUp s i W H
  | .center i => center s i
  | .remove i => removeWindow s i
  | .front i => bringToFront s i

/-- The state at page load (window.js lines 598, 320-327): empty registry,
both slots free, `nextZIndex = Z_INDEX_BASE`. -/
def initState : WMState :=
  ⟨[], none, none, Z_INDEX_BASE, 0⟩

/-- Run a sequence of event callbacks from page load. -/
def run (ops : List WMOp) : WMState :=
  ops.foldl step initState

/-- The snap zone currently recorded on window `i`, if the window is live. -/
def winZone (s : WMState) (i : Nat) : Option SnapZone :=
  (getWin s i).bind Win.snapZone

/-- The committed position of window `i`, if the window is live. -/
def winPos (s : WMState) (i : Nat) : Option (ℚ × ℚ) :=
  (getWin s i).map fun w => (w.x, w.y)

/-- `Window.updateSnapIndicators` (window.js lines 198-204): visibility of the
left and right snap-zone overlays for the constrained drag position `x`,
given `maxX = window.innerWidth - rect.width` (from `constrainToViewport`).
An overlay is shown iff the position is within the threshold of that edge
and the corresponding slot is not occupied. -/
def updateSnapIndicators (s : WMState) (x maxX : ℚ) : Bool × Bool :=
  (decide (x ≤ SNAP_THRESHOLD) && !(isSnapZoneOccupied s .left),
   decide (x ≥ maxX - SNAP_THRESHOLD) && !(isSnapZoneOccupied s .right))

/-- The inline dimension styles of a window element that
`Window.handleMouseDown` may touch (window.js lines 132-136). -/
structure BoxStyle where
  width : String
  height : String
  maxWidth : String
deriving DecidableEq, Repr

/-- `Window.handleMouseDown` (window.js lines 126-147), faithful sequencing
of its effect on `this.snapZone` and the element's dimension styles:
`this.clearSnapZone()` runs first (line 128) and nulls `this.snapZone`
whatever it was; the `if (this.snapZone)` test guarding the
fit-content/auto/none conversion (lines 132-136) is evaluated afterwards. -/
def handleMouseDownStyle (snapZone : Option SnapZone) (st : BoxStyle) :
    Option SnapZone × BoxStyle :=
  -- this.clearSnapZone() (line 128): releases any held slot, nulls this.snapZone
  let cleared : Option SnapZone :=
    match snapZone with
    | some _ => none
    | none => none
  -- if (this.snapZone) { width/height/maxWidth := fit-content/auto/none } (132-136)
  if cleared.isSome then (cleared, ⟨"fit-content", "auto", "none"⟩)
  else (cleared, st)

/-- The window is entirely inside the viewport: both coordinates lie in
`[0, viewport − size]`. -/
def InViewport (win : Win) (W H : ℚ) : Prop :=
  0 ≤ win.x ∧ win.x ≤ W - win.w ∧ 0 ≤ win.y ∧ win.y ≤ H - win.h

/-- Consistency invariant on the manager state: registry ids are distinct
and below the freshness counter, all assigned stack values are below
`nextZIndex`, and the slot table is inverse to the windows' `snapZone`
fields. -/
structure Inv (s : WMState) : Prop where
  nodup : (s.windows.map Win.id).Nodup
  fresh : ∀ w ∈ s.windows, w.id < s.nextId
  zBound : ∀ w ∈ s.windows, w.z < s.nextZIndex
  slot_inv : ∀ z i, slotGet s z = some i ↔
    ∃ w ∈ s.windows, w.id = i ∧ w.snapZone = some z

/-! ### Contribution heatmap, embedded from src/js/github-activity.js -/

/-- The Gregorian leap-year test inlined at github-activity.js lines 150
and 363: `(year % 4 === 0 && year % 100 !== 0) || (year % 400 === 0)`. -/
def isLeapYear (y : Nat) : Bool :=
  (y % 4 == 0 && y % 100 != 0) || y % 400 == 0

/-- `daysInYear` as computed at github-activity.js lines 151 and 364. -/
def daysInYear (y : Nat) : Nat :=
  if isLeapYear y then 366 else 365

/-- Models the JavaScript `new Date(year, 0, 1).getDay()` (0 = Sunday) for
years `≥ 2000`: January 1st 2000 was a Saturday (`getDay() = 6`), and each
year advances the weekday by its day count. -/
def daysSince2000 (y : Nat) : Nat :=
  (List.range (y - 2000)).foldl (fun acc k => acc + daysInYear (2000 + k)) 0

/-- Weekday of January 1st of a year `≥ 2000`, as `Date.getDay()` returns it;
`startDayOfWeek` at github-activity.js lines 34-35, 117-118, 323-324. -/
def jan1Weekday (y : Nat) : Nat :=
  (6 + daysSince2000 y) % 7

/-- `getContributionLevel` (github-activity.js lines 368-374). -/
def getContributionLevel (count : Nat) : Nat :=
  if count == 0 then 0
  else if count ≤ 3 then 1
  else if count ≤ 6 then 2
  else if count ≤ 12 then 3
  else 4

/-- `getYearContributionData` (github-activity.js lines 355-366): the data
mapping's entry for the year, or an all-zero array of `daysInYear year`
entries when the year is absent. -/
def getYearContributionData (year : Nat) (data : Nat → Option (List Nat)) :
    List Nat :=
  match data year with
  | some arr => arr
  | none => List.replicate (daysInYear year) 0

/-- `getGridPosition` (github-activity.js lines 37-41): week column and
day-of-week row of a day index, for a year starting on weekday `s`. -/
def getGridPosition (s dayIndex : Nat) : Nat × Nat :=
  ((dayIndex + s) / 7, (dayIndex + s) % 7)

/-- `isValidDay` (github-activity.js lines 43-45), `n` being
`contributions.length`. -/
def isValidDay (n : Nat) (dayIndex : Int) : Bool :=
  0 ≤ dayIndex && dayIndex < n

/-- A set of day indices (a JavaScript `Set` of numbers) as a bit mask. -/
def visitHas (visited : Nat) (d : Nat) : Bool :=
  visited.testBit d

/-- Insert a day index into the set. -/
def visitAdd (visited : Nat) (d : Nat) : Nat :=
  visited ||| (1 <<< d)

/-- `getNeighbors` (github-activity.js lines 53-74): the up/down/left/right
grid neighbours of a day index that fall inside the 53×7 grid and inside
`[0, n)`, in the source's direction order. -/
def getNeighbors (s n : Nat) (dayIndex : Nat) : List Nat :=
  let pos := getGridPosition s dayIndex
  [((-1 : Int), (0 : Int)), (1, 0), (0, -1), (0, 1)].filterMap fun d =>
    let newWeek : Int := (pos.1 : Int) + d.1
    let newDayOfWeek : Int := (pos.2 : Int) + d.2
    if 0 ≤ newWeek && newWeek < 53 && 0 ≤ newDayOfWeek && newDayOfWeek < 7 then
      let newDayIndex : Int := newWeek * 7 + newDayOfWeek - s
      if isValidDay n newDayIndex then some newDayIndex.toNat else none
    else none

/-- The body of the neighbour scan inside the flood-fill loop
(github-activity.js lines 93-103): an unvisited neighbour whose period label
equals the region's is marked visited and enqueued; the accumulator carries
the visited set and the newly enqueued indices. -/
def markNeighbor (periodOf : Nat → Option String) (label : String)
    (acc : Nat × List Nat) (neighbor : Nat) : Nat × List Nat :=
  if !(visitHas acc.1 neighbor) then
    match periodOf neighbor with
    | some l => if l == label then (visitAdd acc.1 neighbor, acc.2 ++ [neighbor])
                else acc
    | none => acc
  else acc

/-- The `while (queue.length > 0)` flood-fill loop of `findConnectedRegions`
(github-activity.js lines 89-104): pop the queue head, push it onto the
region, and enqueue (marking visited) every unvisited neighbour whose
period label equals the region's.  `periodOf` models
`getTimePeriodForDate(new Date(year, 0, dayIndex + 1))?.label`.  The fuel
argument bounds loop iterations; since every enqueued index is freshly
marked visited, `n + 1` iterations always drain the queue. -/
def floodLoop (s n : Nat) (periodOf : Nat → Option String) (label : String) :
    Nat → List Nat → Nat → List Nat → Nat × List Nat
  | 0, _, visited, region => (visited, region)
  | _ + 1, [], visited, region => (visited, region)
  | fuel + 1, current :: queue, visited, region =>
    let upd := (getNeighbors s n current).foldl (markNeighbor periodOf label)
      (visited, ([] : List Nat))
    floodLoop s n periodOf label fuel (queue ++ upd.2) upd.1 (region ++ [current])

/-- The body of the outer scan of `findConnectedRegions`
(github-activity.js lines 77-109): skip visited or period-less days,
otherwise flood-fill a new region from this day and append it when
non-empty. -/
def outerStep (s n : Nat) (periodOf : Nat → Option String)
    (acc : Nat × List (List Nat)) (dayIndex : Nat) : Nat × List (List Nat) :=
  if visitHas acc.1 dayIndex then acc
  else
    match periodOf dayIndex with
    | none => acc
    | some label =>
      let r := floodLoop s n periodOf label (n + 1) [dayIndex]
        (visitAdd acc.1 dayIndex) []
      (r.1, if r.2.length > 0 then acc.2 ++ [r.2] else acc.2)

/-- `findConnectedRegions` (github-activity.js lines 31-112) for a year whose
January 1st falls on weekday `s`, with `n = contributions.length` days, and
`periodOf` giving each day's period label (if any): scan day indices in
order and flood-fill a new region from every not-yet-visited day that has a
period. -/
def findConnectedRegions (s n : Nat) (periodOf : Nat → Option String) :
    List (List Nat) :=
  ((List.range n).foldl (outerStep s n periodOf) (0, [])).2

/-- One border segment emitted by `createBorderSegment`
(github-activity.js lines 165-206), identified by its cell and edge. -/
structure BorderSegment where
  week : Nat
  dayOfWeek : Nat
  edge : String
deriving DecidableEq, Repr

/-- The direction table of `createRegionBorder` (github-activity.js lines
134-139): edge name, week delta `dx`, day-of-week delta `dy`. -/
def borderDirections : List (String × Int × Int) :=
  [("top", 0, -1), ("right", 1, 0), ("bottom", 0, 1), ("left", -1, 0)]

/-- `createRegionBorder` (github-activity.js lines 114-163): for each cell of
the region and each of the four edges, emit a border segment unless the
adjacent cell is inside the 53×7 grid, is a day of the year (index in
`[0, daysInYear year)`), and belongs to the region.  `periodOf` models the
period lookup used for the border colour (line 122-124): an absent period
aborts with no segments. -/
def createRegionBorder (year s : Nat) (periodOf : Nat → Option String)
    (region : List Nat) : List BorderSegment :=
  match region with
  | [] => []
  | d0 :: _ =>
    match periodOf d0 with
    | none => []
    | some _ =>
      let regionSet := region.foldl visitAdd 0
      region.flatMap fun dayIndex =>
        let week := (dayIndex + s) / 7
        let dayOfWeek := (dayIndex + s) % 7
        borderDirections.filterMap fun dir =>
          let neighborWeek : Int := (week : Int) + dir.2.1
          let neighborDayOfWeek : Int := (dayOfWeek : Int) + dir.2.2
          let hasNeighbor : Bool :=
            if 0 ≤ neighborWeek && neighborWeek < 53 &&
                0 ≤ neighborDayOfWeek && neighborDayOfWeek < 7 then
              let neighborDayIndex : Int :=
                neighborWeek * 7 + neighborDayOfWeek - s
              0 ≤ neighborDayIndex && neighborDayIndex < (daysInYear year : Int)
                && visitHas regionSet neighborDayIndex.toNat
            else false
          if hasNeighbor then none else some ⟨week, dayOfWeek, dir.1⟩

/-- A border segment lies on the grid's outer boundary when the adjacent
cell in the segment's direction is not a day of the year: it falls outside
the 53×7 grid or its day index is outside `[0, daysInYear year)`. -/
def onOuterBoundary (year s : Nat) (seg : BorderSegment) : Bool :=
  match borderDirections.find? (fun p => p.1 == seg.edge) with
  | none => false
  | some dir =>
    let nw : Int := (seg.week : Int) + dir.2.1
    let nd : Int := (seg.dayOfWeek : Int) + dir.2.2
    !(0 ≤ nw && nw < 53 && 0 ≤ nd && nd < 7 &&
      0 ≤ nw * 7 + nd - s && nw * 7 + nd - s < (daysInYear year : Int))

/-- One cell of the rendered contribution grid: whether its day index is in
range of the year's data (the cell then carries a real date title,
github-activity.js lines 342-347) and its intensity level class. -/
structure DayCell where
  inYear : Bool
  level : Nat
deriving DecidableEq, Repr

/-- The grid cells built by `renderYearRow` (github-activity.js lines
333-350): rows are days of week, columns are weeks; out-of-range day
indices use contribution count 0. -/
def renderGridCells (s : Nat) (contributions : List Nat) : List DayCell :=
  (List.range 7).flatMap fun dayOfWeek =>
    (List.range 53).map fun week =>
      let dayIndex : Int := ((week * 7 + dayOfWeek : Nat) : Int) - s
      let inRange : Bool := 0 ≤ dayIndex && dayIndex < contributions.length
      let contributionCount := if inRange then contributions.getD dayIndex.toNat 0 else 0
      ⟨inRange, getContributionLevel contributionCount⟩

/-- The structural output of `renderYearRow` (github-activity.js lines
287-353): the region border segments appended to the background layer
(lines 327-330) and the grid cells (lines 333-350). -/
structure YearRowOut where
  year : Nat
  borders : List BorderSegment
  cells : List DayCell
deriving DecidableEq, Repr

/-- `renderYearRow` (github-activity.js lines 287-353). -/
def renderYearRow (year : Nat) (periodOf : Nat → Option String)
    (contributions : List Nat) : YearRowOut :=
  let s := jan1Weekday year
  let regions := findConnectedRegions s contributions.length periodOf
  ⟨year, regions.flatMap (createRegionBorder year s periodOf),
    renderGridCells s contributions⟩

/-- The year list rendered by `initializeContributionGraphs`
(github-activity.js line 257). -/
def displayedYears : List Nat := [2026, 2025, 2024, 2023, 2022, 2021, 2020]

/-- The year rows built by `initializeContributionGraphs`
(github-activity.js lines 256-261).  `periodOf` models
`getTimePeriodForDate` per year. -/
def buildGraphs (periodOf : Nat → Nat → Option String)
    (data : Nat → Option (List Nat)) : List YearRowOut :=
  displayedYears.map fun year =>
    renderYearRow year (periodOf year) (getYearContributionData year data)

/-- `initializeContributionGraphs` (github-activity.js lines 208-285) as a
transformation of the container's structural content: the container is
cleared (`graphsContainer.innerHTML = ''`, line 213) and the year rows are
rebuilt from the input mapping alone. -/
def initializeContributionGraphs (prev : List YearRowOut)
    (periodOf : Nat → Nat → Option String)
    (data : Nat → Option (List Nat)) : List YearRowOut :=
  let cleared : List YearRowOut := []
  -- graphsContainer.innerHTML = '' discards prev entirely
  match prev with
  | _ => cleared ++ buildGraphs periodOf data

/-! ### Helper lemmas about the window-manager embedding -/

theorem slotGet_setSlot (s : WMState) (z z' : SnapZone) (v : Option Nat) :
    slotGet (setSlot s z v) z' = if z' = z then v else slotGet s z' := by
  cases z <;> cases z' <;> simp [setSlot, slotGet]

theorem windows_setSlot (s : WMState) (z : SnapZone) (v : Option Nat) :
    (setSlot s z v).windows = s.windows := by
  cases z <;> rfl

theorem getWin_setSlot (s : WMState) (z : SnapZone) (v : Option Nat) (i : Nat) :
    getWin (setSlot s z v) i = getWin s i := by
  cases z <;> rfl

theorem nextId_setSlot (s : WMState) (z : SnapZone) (v : Option Nat) :
    (setSlot s z v).nextId = s.nextId := by
  cases z <;> rfl

theorem nextZIndex_setSlot (s : WMState) (z : SnapZone) (v : Option Nat) :
    (setSlot s z v).nextZIndex = s.nextZIndex := by
  cases z <;> rfl

theorem nextId_updateWin (s : WMState) (i : Nat) (f : Win → Win) :
    (updateWin s i f).nextId = s.nextId := rfl

theorem nextZIndex_updateWin (s : WMState) (i : Nat) (f : Win → Win) :
    (updateWin s i f).nextZIndex = s.nextZIndex := rfl

theorem nextId_freeSnapZone (s : WMState) (z : SnapZone) :
    (freeSnapZone s z).nextId = s.nextId :=
  nextId_setSlot s z none

theorem nextZIndex_freeSnapZone (s : WMState) (z : SnapZone) :
    (freeSnapZone s z).nextZIndex = s.nextZIndex :=
  nextZIndex_setSlot s z none

theorem getWin_mem {s : WMState} {i : Nat} {w : Win} (h : getWin s i = some w) :
    w ∈ s.windows ∧ w.id = i := by
  refine ⟨List.mem_of_find?_eq_some h, ?_⟩
  simpa using List.find?_some h

theorem Inv.uniq {s : WMState} (hs : Inv s) {w w' : Win}
    (hw : w ∈ s.windows) (hw' : w' ∈ s.windows) (hid : w.id = w'.id) : w = w' :=
  List.inj_on_of_nodup_map hs.nodup hw hw' hid

theorem getWin_of_mem {s : WMState} (hs : Inv s) {w : Win} (hw : w ∈ s.windows) :
    getWin s w.id = some w := by
  cases h : getWin s w.id with
  | none =>
    exact absurd (by simp) (List.find?_eq_none.1 h w hw)
  | some u =>
    obtain ⟨hu, hid⟩ := getWin_mem h
    exact congrArg some (hs.uniq hu hw hid)

theorem mem_updateWin {s : WMState} {i : Nat} {f : Win → Win} {w' : Win} :
    w' ∈ (updateWin s i f).windows ↔
      ∃ u ∈ s.windows, w' = if u.id = i then f u else u := by
  simp only [updateWin, List.mem_map, beq_iff_eq]
  constructor
  · rintro ⟨u, hu, rfl⟩; exact ⟨u, hu, rfl⟩
  · rintro ⟨u, hu, rfl⟩; exact ⟨u, hu, rfl⟩

theorem getWin_updateWin {s : WMState} {i j : Nat} {f : Win → Win}
    (hid : ∀ w, (f w).id = w.id) :
    getWin (updateWin s i f) j =
      (getWin s j).map (fun w => if w.id = i then f w else w) := by
  unfold getWin updateWin
  rw [List.find?_map]
  have hp : ((fun w : Win => w.id == j) ∘ fun w => if w.id == i then f w else w)
      = fun w : Win => w.id == j := by
    funext w
    by_cases h : w.id = i <;> simp [h, hid]
  rw [hp]
  cases s.windows.find? (fun w : Win => w.id == j) with
  | none => rfl
  | some w => by_cases h : w.id = i <;> simp [h]

theorem windows_map_id_updateWin {s : WMState} {i : Nat} {f : Win → Win}
    (hid : ∀ w, (f w).id = w.id) :
    ((updateWin s i f).windows).map Win.id = s.windows.map Win.id := by
  unfold updateWin
  simp only [List.map_map]
  apply List.map_congr_left
  intro w _
  by_cases h : w.id = i <;> simp [h, hid]

theorem slotGet_updateWin (s : WMState) (i : Nat) (f : Win → Win) (z : SnapZone) :
    slotGet (updateWin s i f) z = slotGet s z := by
  cases z <;> rfl

theorem inv_updateWin {s : WMState} {i : Nat} {f : Win → Win} (hs : Inv s)
    (hid : ∀ w, (f w).id = w.id) (hzone : ∀ w, (f w).snapZone = w.snapZone)
    (hzb : ∀ w ∈ s.windows, (f w).z < s.nextZIndex) : Inv (updateWin s i f) := by
  constructor
  · rw [windows_map_id_updateWin hid]; exact hs.nodup
  · intro w hw
    rw [mem_updateWin] at hw
    obtain ⟨u, hu, rfl⟩ := hw
    show (if u.id = i then f u else u).id < s.nextId
    by_cases h : u.id = i
    · rw [if_pos h, hid]; exact hs.fresh u hu
    · rw [if_neg h]; exact hs.fresh u hu
  · intro w hw
    rw [mem_updateWin] at hw
    obtain ⟨u, hu, rfl⟩ := hw
    show (if u.id = i then f u else u).z < s.nextZIndex
    by_cases h : u.id = i
    · rw [if_pos h]; exact hzb u hu
    · rw [if_neg h]; exact hs.zBound u hu
  · intro z j
    rw [slotGet_updateWin, hs.slot_inv]
    constructor
    · rintro ⟨u, hu, hj, hzn⟩
      refine ⟨if u.id = i then f u else u, mem_updateWin.2 ⟨u, hu, rfl⟩, ?_, ?_⟩
      · by_cases h : u.id = i
        · rw [if_pos h, hid]; exact hj
        · rw [if_neg h]; exact hj
      · by_cases h : u.id = i
        · rw [if_pos h, hzone]; exact hzn
        · rw [if_neg h]; exact hzn
    · rintro ⟨w', hw', hj, hzn⟩
      rw [mem_updateWin] at hw'
      obtain ⟨u, hu, rfl⟩ := hw'
      by_cases h : u.id = i
      · rw [if_pos h] at hj hzn
        rw [hid] at hj
        rw [hzone] at hzn
        exact ⟨u, hu, hj, hzn⟩
      · rw [if_neg h] at hj hzn
        exact ⟨u, hu, hj, hzn⟩

theorem windows_freeSnapZone (s : WMState) (z : SnapZone) :
    (freeSnapZone s z).windows = s.windows :=
  windows_setSlot s z none

theorem getWin_freeSnapZone (s : WMState) (z : SnapZone) (i : Nat) :
    getWin (freeSnapZone s z) i = getWin s i :=
  getWin_setSlot s z none i

theorem win_eta_zone {w : Win} (h : w.snapZone = none) :
    { w with snapZone := none } = w := by
  cases w
  simp_all

theorem clearSnapZone_of_none {s : WMState} {i : Nat} {win : Win}
    (h : getWin s i = some win) (hz : win.snapZone = none) :
    clearSnapZone s i = s := by
  unfold clearSnapZone
  rw [h]
  dsimp only
  rw [hz]

theorem clearSnapZone_not_found {s : WMState} {i : Nat}
    (h : getWin s i = none) : clearSnapZone s i = s := by
  unfold clearSnapZone
  rw [h]

theorem clearSnapZone_of_some {s : WMState} {i : Nat} {win : Win} {z0 : SnapZone}
    (h : getWin s i = some win) (hz : win.snapZone = some z0) :
    clearSnapZone s i =
      updateWin (freeSnapZone s z0) i (fun w => { w with snapZone := none }) := by
  unfold clearSnapZone
  rw [h]
  dsimp only
  rw [hz]

theorem getWin_clearSnapZone_self (s : WMState) (i : Nat) :
    getWin (clearSnapZone s i) i =
      (getWin s i).map (fun w => { w with snapZone := none }) := by
  cases h : getWin s i with
  | none => rw [clearSnapZone_not_found h, h]; rfl
  | some win =>
    cases hz : win.snapZone with
    | none => rw [clearSnapZone_of_none h hz, h]; simp [win_eta_zone hz]
    | some z0 =>
      rw [clearSnapZone_of_some h hz,
        @getWin_updateWin (freeSnapZone s z0) i i (fun w => { w with snapZone := none })
          (fun w => rfl),
        getWin_freeSnapZone, h]
      obtain ⟨hmem, hid⟩ := getWin_mem h
      simp [hid]

theorem inv_clearSnapZone {s : WMState} (hs : Inv s) (i : Nat) :
    Inv (clearSnapZone s i) := by
  cases h : getWin s i with
  | none => rw [clearSnapZone_not_found h]; exact hs
  | some win =>
    cases hz : win.snapZone with
    | none => rw [clearSnapZone_of_none h hz]; exact hs
    | some z0 =>
      obtain ⟨hmem, hid⟩ := getWin_mem h
      rw [clearSnapZone_of_some h hz]
      have howner : slotGet s z0 = some i :=
        (hs.slot_inv z0 i).2 ⟨win, hmem, hid, hz⟩
      constructor
      · rw [@windows_map_id_updateWin (freeSnapZone s z0) i
          (fun w => { w with snapZone := none }) (fun w => rfl), windows_freeSnapZone]
        exact hs.nodup
      · intro w hw
        rw [mem_updateWin] at hw
        rw [windows_freeSnapZone] at hw
        obtain ⟨u, hu, rfl⟩ := hw
        rw [nextId_updateWin, nextId_freeSnapZone]
        by_cases hcase : u.id = i
        · rw [if_pos hcase]; exact hs.fresh u hu
        · rw [if_neg hcase]; exact hs.fresh u hu
      · intro w hw
        rw [mem_updateWin] at hw
        rw [windows_freeSnapZone] at hw
        obtain ⟨u, hu, rfl⟩ := hw
        rw [nextZIndex_updateWin, nextZIndex_freeSnapZone]
        by_cases hcase : u.id = i
        · rw [if_pos hcase]; exact hs.zBound u hu
        · rw [if_neg hcase]; exact hs.zBound u hu
      · intro z j
        rw [slotGet_updateWin]
        show slotGet (setSlot s z0 none) z = some j ↔ _
        rw [slotGet_setSlot]
        by_cases hzz : z = z0
        · rw [if_pos hzz]
          simp only [false_iff, reduceCtorEq]
          rintro ⟨w', hw', hj, hzn⟩
          rw [mem_updateWin] at hw'
          rw [windows_freeSnapZone] at hw'
          obtain ⟨u, hu, rfl⟩ := hw'
          by_cases hcase : u.id = i
          · rw [if_pos hcase] at hzn
            exact absurd hzn (by simp)
          · rw [if_neg hcase] at hj hzn
            have hsl : slotGet s z = some u.id := (hs.slot_inv z u.id).2 ⟨u, hu, rfl, hzn⟩
            rw [hzz, howner] at hsl
            exact hcase (by injection hsl with hh; exact hh.symm)
        · rw [if_neg hzz, hs.slot_inv]
          constructor
          · rintro ⟨u, hu, hj, hzn⟩
            by_cases hcase : u.id = i
            · exfalso
              have : u = win := hs.uniq hu hmem (hcase.trans hid.symm)
              rw [this, hz] at hzn
              exact hzz (by injection hzn with hh; exact hh.symm)
            · refine ⟨u, ?_, hj, hzn⟩
              rw [mem_updateWin]
              rw [windows_freeSnapZone]
              exact ⟨u, hu, (if_neg hcase).symm⟩
          · rintro ⟨w', hw', hj, hzn⟩
            rw [mem_updateWin] at hw'
            rw [windows_freeSnapZone] at hw'
            obtain ⟨u, hu, rfl⟩ := hw'
            by_cases hcase : u.id = i
            · rw [if_pos hcase] at hzn
              exact absurd hzn (by simp)
            · rw [if_neg hcase] at hj hzn
              exact ⟨u, hu, hj, hzn⟩

theorem inv_snapToSide {s : WMState} {i : Nat} {win : Win} {z : SnapZone} {W H : ℚ}
    (hs : Inv s) (h : getWin s i = some win) (hz : win.snapZone = none)
    (hfree : slotGet s z = none) : Inv (snapToSide s i z W H) := by
  obtain ⟨hmem, hid⟩ := getWin_mem h
  unfold snapToSide occupySnapZone
  constructor
  · rw [windows_setSlot,
      @windows_map_id_updateWin s i (fun w => snapGeom w z W H) (fun w => rfl)]
    exact hs.nodup
  · intro w hw
    rw [windows_setSlot, mem_updateWin] at hw
    obtain ⟨u, hu, rfl⟩ := hw
    rw [nextId_setSlot]
    show (if u.id = i then _ else u).id < s.nextId
    by_cases hcase : u.id = i
    · rw [if_pos hcase]; exact hs.fresh u hu
    · rw [if_neg hcase]; exact hs.fresh u hu
  · intro w hw
    rw [windows_setSlot, mem_updateWin] at hw
    obtain ⟨u, hu, rfl⟩ := hw
    rw [nextZIndex_setSlot]
    show (if u.id = i then _ else u).z < s.nextZIndex
    by_cases hcase : u.id = i
    · rw [if_pos hcase]; exact hs.zBound u hu
    · rw [if_neg hcase]; exact hs.zBound u hu
  · intro z' j
    rw [slotGet_setSlot, windows_setSlot]
    by_cases hzz : z' = z
    · rw [if_pos hzz]
      constructor
      · rintro hj
        injection hj with hj
        subst hj
        refine ⟨snapGeom win z W H, ?_, ?_, ?_⟩
        · rw [mem_updateWin]
          exact ⟨win, hmem, by rw [if_pos hid]⟩
        · show win.id = i
          exact hid
        · show some z = some z'
          rw [hzz]
      · rintro ⟨w', hw', hj, hzn⟩
        rw [mem_updateWin] at hw'
        obtain ⟨u, hu, rfl⟩ := hw'
        by_cases hcase : u.id = i
        · rw [if_pos hcase] at hj
          rw [show (snapGeom u z W H).id = u.id from rfl] at hj
          rw [hcase] at hj
          rw [hj]
        · exfalso
          rw [if_neg hcase] at hj hzn
          subst hzz
          have : slotGet s z' = some u.id := (hs.slot_inv z' u.id).2 ⟨u, hu, rfl, hzn⟩
          rw [hfree] at this
          exact absurd this (by simp)
    · rw [if_neg hzz, slotGet_updateWin, hs.slot_inv]
      constructor
      · rintro ⟨u, hu, hj, hzn⟩
        by_cases hcase : u.id = i
        · exfalso
          have : u = win := hs.uniq hu hmem (hcase.trans hid.symm)
          rw [this, hz] at hzn
          exact absurd hzn (by simp)
        · refine ⟨u, ?_, hj, hzn⟩
          rw [mem_updateWin]
          exact ⟨u, hu, (if_neg hcase).symm⟩
      · rintro ⟨w', hw', hj, hzn⟩
        rw [mem_updateWin] at hw'
        obtain ⟨u, hu, rfl⟩ := hw'
        by_cases hcase : u.id = i
        · exfalso
          rw [if_pos hcase] at hzn
          rw [show (snapGeom u z W H).snapZone = some z from rfl] at hzn
          injection hzn with hzn
          exact hzz hzn.symm
        · rw [if_neg hcase] at hj hzn
          exact ⟨u, hu, hj, hzn⟩

theorem inv_attemptSnap {s : WMState} (hs : Inv s) (i : Nat) (W H : ℚ) :
    Inv (attemptSnap s i W H) := by
  unfold attemptSnap
  cases h : getWin s i with
  | none => exact hs
  | some win =>
    dsimp only
    have hs1 : Inv (clearSnapZone s i) := inv_clearSnapZone hs i
    have hg1 : getWin (clearSnapZone s i) i = some { win with snapZone := none } := by
      rw [getWin_clearSnapZone_self, h]
      rfl
    by_cases hL : (decide (win.x ≤ SNAP_THRESHOLD)
        && !(isSnapZoneOccupied (clearSnapZone s i) .left)) = true
    · rw [if_pos hL]
      have hfree : slotGet (clearSnapZone s i) .left = none := by
        have h2 := hL
        rw [Bool.and_eq_true] at h2
        replace h2 := h2.2
        cases hoc : slotGet (clearSnapZone s i) SnapZone.left with
        | none => rfl
        | some v => simp [isSnapZoneOccupied, hoc] at h2
      exact inv_snapToSide hs1 hg1 rfl hfree
    · rw [if_neg hL]
      by_cases hR : (decide (win.x ≥ W - win.w - SNAP_THRESHOLD)
          && !(isSnapZoneOccupied (clearSnapZone s i) .right)) = true
      · rw [if_pos hR]
        have hfree : slotGet (clearSnapZone s i) .right = none := by
          have h2 := hR
          rw [Bool.and_eq_true] at h2
          replace h2 := h2.2
          cases hoc : slotGet (clearSnapZone s i) SnapZone.right with
          | none => rfl
          | some v => simp [isSnapZoneOccupied, hoc] at h2
        exact inv_snapToSide hs1 hg1 rfl hfree
      · rw [if_neg hR]
        exact hs1

theorem zone_clearSnapZone_mem {s : WMState} (hs : Inv s) {i : Nat} {u : Win}
    (hu : u ∈ (clearSnapZone s i).windows) (hui : u.id = i) :
    u.snapZone = none := by
  have hs1 : Inv (clearSnapZone s i) := inv_clearSnapZone hs i
  have hg : getWin (clearSnapZone s i) u.id = some u := getWin_of_mem hs1 hu
  rw [hui, getWin_clearSnapZone_self] at hg
  cases hgs : getWin s i with
  | none => rw [hgs] at hg; exact absurd hg (by simp)
  | some win =>
    rw [hgs] at hg
    injection hg with hg
    rw [← hg]

theorem inv_createWindow {s : WMState} (hs : Inv s) (x y w h : ℚ) :
    Inv (createWindow s x y w h) := by
  constructor
  · show (List.map Win.id (s.windows ++ [_])).Nodup
    rw [List.map_append, List.nodup_append]
    refine ⟨hs.nodup, by simp, ?_⟩
    intro a ha hb
    simp only [List.map_cons, List.map_nil, List.mem_singleton] at hb
    subst hb
    obtain ⟨u, hu, hui⟩ := List.mem_map.1 ha
    have := hs.fresh u hu
    omega
  · intro w' hw'
    show w'.id < s.nextId + 1
    rcases List.mem_append.1 hw' with h1 | h1
    · exact Nat.lt_succ_of_lt (hs.fresh _ h1)
    · simp only [List.mem_singleton] at h1
      subst h1
      exact Nat.lt_succ_self _
  · intro w' hw'
    show w'.z < s.nextZIndex + 1
    rcases List.mem_append.1 hw' with h1 | h1
    · exact Nat.lt_succ_of_lt (hs.zBound _ h1)
    · simp only [List.mem_singleton] at h1
      subst h1
      exact Nat.lt_succ_self _
  · intro z j
    have hsl : slotGet (createWindow s x y w h) z = slotGet s z := by
      cases z <;> rfl
    rw [hsl, hs.slot_inv]
    constructor
    · rintro ⟨u, hu, hj, hzn⟩
      exact ⟨u, List.mem_append_left _ hu, hj, hzn⟩
    · rintro ⟨w', hw', hj, hzn⟩
      rcases List.mem_append.1 hw' with h1 | h1
      · exact ⟨w', h1, hj, hzn⟩
      · simp only [List.mem_singleton] at h1
        subst h1
        exact absurd hzn (by simp)

theorem inv_handleMouseDown {s : WMState} (hs : Inv s) (i : Nat) :
    Inv (handleMouseDown s i) :=
  inv_clearSnapZone
    (@inv_updateWin s i (fun w => { w with isDragging := true }) hs
      (fun _ => rfl) (fun _ => rfl) (fun w hw => hs.zBound w hw)) i

theorem inv_handleMouseMove {s : WMState} (hs : Inv s) (i : Nat) (px py W H : ℚ) :
    Inv (handleMouseMove s i px py W H) := by
  unfold handleMouseMove
  cases h : getWin s i with
  | none => exact hs
  | some win =>
    dsimp only
    by_cases hd : win.isDragging
    · rw [if_pos hd]
      exact @inv_updateWin s i (fun w => dragMove w W H px py) hs
        (fun _ => rfl) (fun _ => rfl) (fun w hw => hs.zBound w hw)
    · rw [if_neg hd]
      exact hs

theorem inv_handleMouseUp {s : WMState} (hs : Inv s) (i : Nat) (W H : ℚ) :
    Inv (handleMouseUp s i W H) := by
  unfold handleMouseUp
  cases h : getWin s i with
  | none => exact hs
  | some win =>
    dsimp only
    by_cases hd : win.isDragging
    · rw [if_pos hd]
      have hs1 := inv_attemptSnap hs i W H
      exact @inv_updateWin (attemptSnap s i W H) i
        (fun w => { w with isDragging := false }) hs1
        (fun _ => rfl) (fun _ => rfl) (fun w hw => hs1.zBound w hw)
    · rw [if_neg hd]
      exact hs

theorem inv_center {s : WMState} (hs : Inv s) (i : Nat) : Inv (center s i) :=
  inv_clearSnapZone hs i

theorem mem_eraseP_of_not {α : Type} (p : α → Bool) (l : List α) (a : α)
    (ha : a ∈ l) (hpa : p a = false) : a ∈ l.eraseP p := by
  have hneg : ¬p a := by simp [hpa]
  exact (List.mem_eraseP_of_neg hneg).2 ha

theorem inv_removeWindow {s : WMState} (hs : Inv s) (i : Nat) :
    Inv (removeWindow s i) := by
  have hs1 : Inv (clearSnapZone s i) := inv_clearSnapZone hs i
  constructor
  · exact List.Nodup.sublist
      (List.Sublist.map Win.id (List.eraseP_sublist _)) hs1.nodup
  · intro w hw
    exact hs1.fresh w (List.mem_of_mem_eraseP hw)
  · intro w hw
    exact hs1.zBound w (List.mem_of_mem_eraseP hw)
  · intro z j
    have hsl : slotGet (removeWindow s i) z = slotGet (clearSnapZone s i) z := by
      cases z <;> rfl
    rw [hsl, hs1.slot_inv]
    constructor
    · rintro ⟨u, hu, hj, hzn⟩
      refine ⟨u, ?_, hj, hzn⟩
      have hne : (u.id == i) = false := by
        cases hb : (u.id == i)
        · rfl
        · exfalso
          have : u.snapZone = none := zone_clearSnapZone_mem hs hu (by simpa using hb)
          rw [this] at hzn
          exact absurd hzn (by simp)
      exact mem_eraseP_of_not _ _ _ hu hne
    · rintro ⟨w', hw', hj, hzn⟩
      exact ⟨w', List.mem_of_mem_eraseP hw', hj, hzn⟩

theorem inv_bringToFront {s : WMState} (hs : Inv s) (i : Nat) :
    Inv (bringToFront s i) := by
  have hbump : Inv { s with nextZIndex := s.nextZIndex + 1 } := by
    constructor
    · exact hs.nodup
    · exact hs.fresh
    · intro w hw
      exact Nat.lt_succ_of_lt (hs.zBound w hw)
    · intro z j
      have hsl : slotGet { s with nextZIndex := s.nextZIndex + 1 } z = slotGet s z := by
        cases z <;> rfl
      rw [hsl]
      exact hs.slot_inv z j
  exact @inv_updateWin { s with nextZIndex := s.nextZIndex + 1 } i
    (fun w => { w with z := s.nextZIndex }) hbump
    (fun _ => rfl) (fun _ => rfl) (fun w _ => Nat.lt_succ_self s.nextZIndex)

theorem inv_step {s : WMState} (hs : Inv s) (op : WMOp) : Inv (step s op) := by
  cases op with
  | create x y w h => exact inv_createWindow hs x y w h
  | mouseDown i => exact inv_handleMouseDown hs i
  | mouseMove i px py W H => exact inv_handleMouseMove hs i px py W H
  | mouseUp i W H => exact inv_handleMouseUp hs i W H
  | center i => exact inv_center hs i
  | remove i => exact inv_removeWindow hs i
  | front i => exact inv_bringToFront hs i

theorem inv_initState : Inv initState := by
  constructor
  · simp [initState]
  · intro w hw
    exact absurd hw (by simp [initState])
  · intro w hw
    exact absurd hw (by simp [initState])
  · intro z j
    constructor
    · intro hj
      exact absurd hj (by cases z <;> simp [initState, slotGet])
    · rintro ⟨w, hw, -, -⟩
      exact absurd hw (by simp [initState])

theorem inv_run (ops : List WMOp) : Inv (run ops) := by
  suffices hgen : ∀ (l : List WMOp) (s : WMState), Inv s → Inv (l.foldl step s) by
    exact hgen ops initState inv_initState
  intro l
  induction l with
  | nil => intro s hs; exact hs
  | cons op tl ih =>
    intro s hs
    exact ih (step s op) (inv_step hs op)

/-! ### Helper lemmas for the flood fill -/

theorem visitHas_visitAdd (v d e : Nat) :
    visitHas (visitAdd v d) e = (visitHas v e || d == e) := by
  unfold visitHas visitAdd
  rw [Nat.testBit_or, Nat.shiftLeft_eq, one_mul, Nat.testBit_two_pow]
  by_cases h : d = e <;> simp [h]

theorem visitHas_visitAdd_self (v d : Nat) : visitHas (visitAdd v d) d = true := by
  rw [visitHas_visitAdd]
  simp

theorem visitHas_zero (d : Nat) : visitHas 0 d = false :=
  Nat.zero_testBit d

/-- Number of unvisited day indices below `n`; the termination measure of the
flood-fill loop. -/
def unvisited (n v : Nat) : Nat :=
  ((Finset.range n).filter (fun d => visitHas v d = false)).card

theorem unvisited_visitAdd {n v d : Nat} (hd : d < n)
    (hfresh : visitHas v d = false) :
    unvisited n (visitAdd v d) + 1 = unvisited n v := by
  unfold unvisited
  have hset : (Finset.range n).filter (fun e => visitHas (visitAdd v d) e = false) =
      ((Finset.range n).filter (fun e => visitHas v e = false)).erase d := by
    ext e
    simp only [Finset.mem_filter, Finset.mem_erase, Finset.mem_range,
      visitHas_visitAdd, Bool.or_eq_false_iff, beq_eq_false_iff_ne, ne_eq]
    constructor
    · rintro ⟨he, hv, hde⟩
      exact ⟨fun h => hde h.symm, he, hv⟩
    · rintro ⟨hde, he, hv⟩
      exact ⟨he, hv, fun h => hde h.symm⟩
  rw [hset]
  have hmem : d ∈ (Finset.range n).filter (fun e => visitHas v e = false) := by
    simp [hd, hfresh]
  rw [Finset.card_erase_of_mem hmem]
  have hpos : 0 < ((Finset.range n).filter fun e => visitHas v e = false).card :=
    Finset.card_pos.2 ⟨d, hmem⟩
  omega

theorem visitHas_foldl_visitAdd (l : List Nat) : ∀ (v d : Nat),
    visitHas (l.foldl visitAdd v) d = true ↔ visitHas v d = true ∨ d ∈ l := by
  induction l with
  | nil => intro v d; simp
  | cons a tl ih =>
    intro v d
    rw [List.foldl_cons, ih, visitHas_visitAdd]
    simp only [Bool.or_eq_true, beq_iff_eq, List.mem_cons]
    constructor
    · rintro ((h | rfl) | h)
      · exact Or.inl h
      · exact Or.inr (Or.inl rfl)
      · exact Or.inr (Or.inr h)
    · rintro (h | rfl | h)
      · exact Or.inl (Or.inl h)
      · exact Or.inl (Or.inr rfl)
      · exact Or.inr h

theorem getNeighbors_lt (s n d : Nat) : ∀ nb ∈ getNeighbors s n d, nb < n := by
  intro nb hnb
  unfold getNeighbors at hnb
  rw [List.mem_filterMap] at hnb
  obtain ⟨dir, hdir, hopt⟩ := hnb
  dsimp only at hopt
  split at hopt
  · split at hopt
    · rename_i hvalid
      injection hopt with h
      subst h
      unfold isValidDay at hvalid
      rw [Bool.and_eq_true, decide_eq_true_eq, decide_eq_true_eq] at hvalid
      omega
    · exact absurd hopt (by simp)
  · exact absurd hopt (by simp)

theorem markFold_spec (po : Nat → Option String) (label : String)
    (hpo : ∀ d, po d = some label) (l : List Nat) :
    ∀ v acc, ∃ v' added,
      l.foldl (markNeighbor po label) (v, acc) = (v', acc ++ added) ∧
      (∀ d, visitHas v' d = true ↔ visitHas v d = true ∨ d ∈ added) ∧
      (∀ d ∈ l, visitHas v' d = true) ∧
      (∀ d ∈ added, d ∈ l ∧ visitHas v d = false) ∧
      (∀ n, (∀ d ∈ l, d < n) → unvisited n v' + added.length = unvisited n v) := by
  induction l with
  | nil =>
    intro v acc
    exact ⟨v, [], by simp, by simp, by simp, by simp, fun n _ => by simp⟩
  | cons a tl ih =>
    intro v acc
    rw [List.foldl_cons]
    by_cases hfresh : visitHas v a = true
    · have hstep : markNeighbor po label (v, acc) a = (v, acc) := by
        unfold markNeighbor
        dsimp only
        rw [hfresh]
        rfl
      rw [hstep]
      obtain ⟨v', added, heq, hiff, hall, hadd, hcard⟩ := ih v acc
      refine ⟨v', added, heq, hiff, ?_, ?_, ?_⟩
      · intro d hd
        rcases List.mem_cons.1 hd with rfl | hd
        · exact (hiff d).2 (Or.inl hfresh)
        · exact hall d hd
      · intro d hd
        obtain ⟨h1, h2⟩ := hadd d hd
        exact ⟨List.mem_cons_of_mem _ h1, h2⟩
      · intro n hn
        exact hcard n (fun d hd => hn d (List.mem_cons_of_mem _ hd))
    · rw [Bool.not_eq_true] at hfresh
      have hstep : markNeighbor po label (v, acc) a = (visitAdd v a, acc ++ [a]) := by
        unfold markNeighbor
        dsimp only
        rw [hfresh, hpo a]
        simp
      rw [hstep]
      obtain ⟨v', added, heq, hiff, hall, hadd, hcard⟩ := ih (visitAdd v a) (acc ++ [a])
      refine ⟨v', a :: added, ?_, ?_, ?_, ?_, ?_⟩
      · rw [heq, List.append_assoc]
        rfl
      · intro d
        rw [hiff d, visitHas_visitAdd]
        simp only [Bool.or_eq_true, beq_iff_eq, List.mem_cons]
        constructor
        · rintro ((h | rfl) | h)
          · exact Or.inl h
          · exact Or.inr (Or.inl rfl)
          · exact Or.inr (Or.inr h)
        · rintro (h | rfl | h)
          · exact Or.inl (Or.inl h)
          · exact Or.inl (Or.inr rfl)
          · exact Or.inr h
      · intro d hd
        rcases List.mem_cons.1 hd with rfl | hd
        · exact (hiff d).2 (Or.inl (visitHas_visitAdd_self v d))
        · exact hall d hd
      · intro d hd
        rcases List.mem_cons.1 hd with rfl | hd
        · exact ⟨List.mem_cons_self _ _, hfresh⟩
        · obtain ⟨h1, h2⟩ := hadd d hd
          refine ⟨List.mem_cons_of_mem _ h1, ?_⟩
          rw [visitHas_visitAdd, Bool.or_eq_false_iff] at h2
          exact h2.1
      · intro n hn
        have hcard' := hcard n (fun d hd => hn d (List.mem_cons_of_mem _ hd))
        have ha : a < n := hn a (List.mem_cons_self _ _)
        have hsub := unvisited_visitAdd ha hfresh
        simp only [List.length_cons]
        omega

theorem floodLoop_cons (s n : Nat) (po : Nat → Option String) (label : String)
    (fuel c : Nat) (queue : List Nat) (visited : Nat) (region : List Nat) :
    floodLoop s n po label (fuel + 1) (c :: queue) visited region =
      floodLoop s n po label fuel
        (queue ++ ((getNeighbors s n c).foldl (markNeighbor po label) (visited, [])).2)
        ((getNeighbors s n c).foldl (markNeighbor po label) (visited, [])).1
        (region ++ [c]) := rfl

theorem floodLoop_spec (s n : Nat) (po : Nat → Option String) (label : String)
    (hpo : ∀ d, po d = some label) :
    ∀ (fuel : Nat) (queue : List Nat) (visited : Nat) (region : List Nat),
      (∀ d, visitHas visited d = true ↔ d ∈ region ∨ d ∈ queue) →
      (∀ d ∈ region, ∀ nb ∈ getNeighbors s n d, visitHas visited nb = true) →
      (∀ d, visitHas visited d = true → d < n) →
      queue.length + unvisited n visited < fuel →
      ∃ V R,
        floodLoop s n po label fuel queue visited region = (V, R) ∧
        (∀ d, visitHas V d = true ↔ d ∈ R) ∧
        (∀ d ∈ R, ∀ nb ∈ getNeighbors s n d, visitHas V nb = true) ∧
        (∀ d, visitHas V d = true → d < n) ∧
        (∀ d, visitHas visited d = true → visitHas V d = true) := by
  intro fuel
  induction fuel with
  | zero =>
    intro queue visited region _ _ _ hfuel
    omega
  | succ fuel ih =>
    intro queue visited region ha hb hc hfuel
    cases queue with
    | nil =>
      refine ⟨visited, region, rfl, ?_, hb, hc, fun d h => h⟩
      intro d
      rw [ha d]
      simp
    | cons c rest =>
      obtain ⟨v', added, heq, hiff, hall, hadd, hcard⟩ :=
        markFold_spec po label hpo (getNeighbors s n c) visited []
      rw [List.nil_append] at heq
      have hstep : floodLoop s n po label (fuel + 1) (c :: rest) visited region =
          floodLoop s n po label fuel (rest ++ added) v' (region ++ [c]) := by
        rw [floodLoop_cons, heq]
      have inv1 : ∀ d, visitHas v' d = true ↔ d ∈ region ++ [c] ∨ d ∈ rest ++ added := by
        intro d
        rw [hiff d, ha d]
        simp only [List.mem_append, List.mem_cons, List.mem_singleton]
        tauto
      have inv2 : ∀ d ∈ region ++ [c], ∀ nb ∈ getNeighbors s n d,
          visitHas v' nb = true := by
        intro d hd nb hnb
        rcases List.mem_append.1 hd with hd | hd
        · exact (hiff nb).2 (Or.inl (hb d hd nb hnb))
        · rw [List.mem_singleton] at hd
          subst hd
          exact hall nb hnb
      have inv3 : ∀ d, visitHas v' d = true → d < n := by
        intro d hdv
        rcases (hiff d).1 hdv with h | h
        · exact hc d h
        · exact getNeighbors_lt s n c d ((hadd d h).1)
      have invf : (rest ++ added).length + unvisited n v' < fuel := by
        have hcardn := hcard n (getNeighbors_lt s n c)
        rw [List.length_append]
        simp only [List.length_cons] at hfuel
        omega
      obtain ⟨V, R, hVR, h1, h2, h3, h4⟩ :=
        ih (rest ++ added) v' (region ++ [c]) inv1 inv2 inv3 invf
      exact ⟨V, R, hstep.trans hVR, h1, h2, h3,
        fun d hd => h4 d ((hiff d).2 (Or.inl hd))⟩

/-! ### Connectivity of the 2024 grid (year starting on Monday, 366 days) -/

theorem nb_down (d : Nat) (h1 : (d + 1) % 7 ≤ 5) (h2 : d + 1 < 366) :
    d + 1 ∈ getNeighbors 1 366 d := by
  unfold getNeighbors getGridPosition
  rw [List.mem_filterMap]
  refine ⟨(0, 1), by simp, ?_⟩
  dsimp only
  rw [if_pos, if_pos]
  · congr 1
    omega
  · unfold isValidDay
    simp only [Bool.and_eq_true, decide_eq_true_eq]
    constructor <;> omega
  · simp only [Bool.and_eq_true, decide_eq_true_eq]
    refine ⟨⟨⟨?_, ?_⟩, ?_⟩, ?_⟩ <;> omega

theorem nb_right (w : Nat) (hw : w + 1 ≤ 52) :
    7 * (w + 1) ∈ getNeighbors 1 366 (7 * w) := by
  unfold getNeighbors getGridPosition
  rw [List.mem_filterMap]
  refine ⟨(1, 0), by simp, ?_⟩
  dsimp only
  rw [if_pos, if_pos]
  · congr 1
    omega
  · unfold isValidDay
    simp only [Bool.and_eq_true, decide_eq_true_eq]
    constructor <;> omega
  · simp only [Bool.and_eq_true, decide_eq_true_eq]
    refine ⟨⟨⟨?_, ?_⟩, ?_⟩, ?_⟩ <;> omega

theorem nb_up (w : Nat) (h1 : 1 ≤ w) (hw : w ≤ 52) :
    7 * w - 1 ∈ getNeighbors 1 366 (7 * w) := by
  unfold getNeighbors getGridPosition
  rw [List.mem_filterMap]
  refine ⟨(0, -1), by simp, ?_⟩
  dsimp only
  rw [if_pos, if_pos]
  · congr 1
    omega
  · unfold isValidDay
    simp only [Bool.and_eq_true, decide_eq_true_eq]
    constructor <;> omega
  · simp only [Bool.and_eq_true, decide_eq_true_eq]
    refine ⟨⟨⟨?_, ?_⟩, ?_⟩, ?_⟩ <;> omega

/-- Every day of a 366-day year starting on Monday is reached by the
4-neighbour closure from day 0. -/
theorem flood_reaches_all (V : Nat) (h0 : visitHas V 0 = true)
    (hclosed : ∀ d, visitHas V d = true →
      ∀ nb ∈ getNeighbors 1 366 d, visitHas V nb = true) :
    ∀ d, d < 366 → visitHas V d = true := by
  have hanchor : ∀ w, w ≤ 52 → visitHas V (7 * w) = true := by
    intro w
    induction w with
    | zero => intro _; simpa using h0
    | succ k ih =>
      intro hk
      exact hclosed (7 * k) (ih (by omega)) (7 * (k + 1)) (nb_right k hk)
  have hcol : ∀ j w, j ≤ 5 → 7 * w + j < 366 → w ≤ 52 →
      visitHas V (7 * w + j) = true := by
    intro j
    induction j with
    | zero => intro w _ _ h3; simpa using hanchor w h3
    | succ k ih =>
      intro w hk h2 h3
      have hd : visitHas V (7 * w + k) = true := ih w (by omega) (by omega) h3
      have hnb : 7 * w + k + 1 ∈ getNeighbors 1 366 (7 * w + k) :=
        nb_down (7 * w + k) (by omega) (by omega)
      have := hclosed (7 * w + k) hd (7 * w + k + 1) hnb
      simpa [Nat.add_assoc] using this
  have hup : ∀ w, 1 ≤ w → w ≤ 52 → visitHas V (7 * w - 1) = true := by
    intro w hw1 hw2
    exact hclosed (7 * w) (hanchor w hw2) (7 * w - 1) (nb_up w hw1 hw2)
  intro d hd
  rcases eq_or_ne ((d + 1) % 7) 0 with h7 | h7
  · have hdw : d = 7 * ((d + 1) / 7) - 1 := by omega
    rw [hdw]
    apply hup <;> omega
  · have hdw : d = 7 * ((d + 1) / 7) + ((d + 1) % 7 - 1) := by omega
    rw [hdw]
    apply hcol <;> omega

theorem outer_skip (s n : Nat) (po : Nat → Option String) :
    ∀ (l : List Nat) (acc : Nat × List (List Nat)),
      (∀ d ∈ l, visitHas acc.1 d = true) →
      l.foldl (outerStep s n po) acc = acc := by
  intro l
  induction l with
  | nil => intro acc _; rfl
  | cons a tl ih =>
    intro acc hall
    rw [List.foldl_cons]
    have hstep : outerStep s n po acc a = acc := by
      unfold outerStep
      rw [if_pos (hall a (List.mem_cons_self _ _))]
    rw [hstep]
    exact ih acc (fun d hd => hall d (List.mem_cons_of_mem _ hd))

theorem unvisited_init : unvisited 366 (visitAdd 0 0) ≤ 365 := by
  unfold unvisited
  have hsub : (Finset.range 366).filter (fun d => visitHas (visitAdd 0 0) d = false) ⊆
      (Finset.range 366).erase 0 := by
    intro e he
    simp only [Finset.mem_filter, Finset.mem_range] at he
    rw [Finset.mem_erase]
    refine ⟨?_, Finset.mem_range.2 he.1⟩
    intro h0
    subst h0
    rw [visitHas_visitAdd_self] at he
    exact absurd he.2 (by simp)
  have hcard := Finset.card_le_card hsub
  rw [Finset.card_erase_of_mem (by simp), Finset.card_range] at hcard
  exact hcard

/-- The flood fill over a 366-day year starting on Monday, in which every
day carries the same period label, produces exactly one region, and that
region consists of exactly the 366 day indices of the year. -/
theorem findConnectedRegions_allP :
    ∃ r, findConnectedRegions 1 366 (fun _ => some "P") = [r] ∧
      (∀ d, d ∈ r ↔ d < 366) := by
  have hpo : ∀ d : Nat, (fun _ : Nat => some "P") d = some "P" := fun _ => rfl
  have ha : ∀ d, visitHas (visitAdd 0 0) d = true ↔
      d ∈ ([] : List Nat) ∨ d ∈ [0] := by
    intro d
    rw [visitHas_visitAdd, visitHas_zero]
    simp only [Bool.false_or, beq_iff_eq, List.not_mem_nil, List.mem_singleton,
      false_or]
    exact eq_comm
  have hb : ∀ d ∈ ([] : List Nat), ∀ nb ∈ getNeighbors 1 366 d,
      visitHas (visitAdd 0 0) nb = true := by
    intro d hd
    exact absurd hd (List.not_mem_nil d)
  have hc : ∀ d, visitHas (visitAdd 0 0) d = true → d < 366 := by
    intro d h
    rw [visitHas_visitAdd] at h
    rw [visitHas_zero] at h
    simp only [Bool.false_or, beq_iff_eq] at h
    omega
  have hfuel : ([0] : List Nat).length + unvisited 366 (visitAdd 0 0) < 366 + 1 := by
    have := unvisited_init
    simp only [List.length_cons, List.length_nil]
    omega
  obtain ⟨V, R, heq, hiff, hclosed, hlt, hmono⟩ :=
    floodLoop_spec 1 366 (fun _ => some "P") "P" hpo (366 + 1) [0]
      (visitAdd 0 0) [] ha hb hc hfuel
  have h0 : visitHas V 0 = true := hmono 0 (visitHas_visitAdd_self 0 0)
  have hall : ∀ d, d < 366 → visitHas V d = true :=
    flood_reaches_all V h0 (fun d hd => hclosed d ((hiff d).1 hd))
  have hR0 : (0 : Nat) ∈ R := (hiff 0).1 h0
  have hstep1 : outerStep 1 366 (fun _ => some "P") (0, []) 0 = (V, [R]) := by
    unfold outerStep
    rw [if_neg (by simp [visitHas_zero])]
    dsimp only
    rw [heq]
    dsimp only
    rw [if_pos (List.length_pos.2 (List.ne_nil_of_mem hR0))]
    rw [List.nil_append]
  unfold findConnectedRegions
  rw [show (366 : Nat) = 365 + 1 from rfl, List.range_succ_eq_map,
    List.foldl_cons, hstep1, outer_skip]
  · exact ⟨R, rfl, fun d =>
      ⟨fun hd => hlt d ((hiff d).2 hd), fun hd => (hiff d).1 (hall d hd)⟩⟩
  · intro d hd
    rw [List.mem_map] at hd
    obtain ⟨k, hk, rfl⟩ := hd
    rw [List.mem_range] at hk
    exact hall _ (by omega)

/-- Unfolding of `onOuterBoundary`: the segment lies on the outer boundary
when the six grid/in-year conditions on the adjacent cell cannot all hold. -/
theorem onOuterBoundary_of_not (year s wk dw : Nat) (name : String) (dx dy : Int)
    (hfind : borderDirections.find? (fun p => p.1 == name) = some (name, dx, dy))
    (hcond : 0 ≤ (wk : Int) + dx → (wk : Int) + dx < 53 →
      0 ≤ (dw : Int) + dy → (dw : Int) + dy < 7 →
      0 ≤ ((wk : Int) + dx) * 7 + ((dw : Int) + dy) - s →
      ¬(((wk : Int) + dx) * 7 + ((dw : Int) + dy) - s < (daysInYear year : Int))) :
    onOuterBoundary year s ⟨wk, dw, name⟩ = true := by
  unfold onOuterBoundary
  dsimp only
  rw [hfind]
  dsimp only
  rw [Bool.not_eq_true']
  rw [← Bool.not_eq_true]
  simp only [Bool.and_eq_true, decide_eq_true_eq]
  rintro ⟨⟨⟨⟨⟨hg1, hg2⟩, hg3⟩, hg4⟩, hv1⟩, hv2⟩
  exact hcond hg1 hg2 hg3 hg4 hv1 hv2

/-- A segment whose adjacent cell falls outside the 53×7 grid is on the
outer boundary. -/
theorem seg_outer_of_invalid (year s wk dw : Nat) (name : String) (dx dy : Int)
    (hfind : borderDirections.find? (fun p => p.1 == name) = some (name, dx, dy))
    (hg : ¬((decide (0 ≤ (wk : Int) + dx) && decide ((wk : Int) + dx < 53) &&
      decide (0 ≤ (dw : Int) + dy) && decide ((dw : Int) + dy < 7)) = true)) :
    onOuterBoundary year s ⟨wk, dw, name⟩ = true := by
  refine onOuterBoundary_of_not year s wk dw name dx dy hfind ?_
  intro h1 h2 h3 h4 _ _
  apply hg
  simp only [Bool.and_eq_true, decide_eq_true_eq]
  exact ⟨⟨⟨h1, h2⟩, h3⟩, h4⟩

/-- A segment whose adjacent cell is in the grid but was rejected by the
region test is on the outer boundary when the region holds every day of the
year: rejection then means the adjacent day index is outside the year. -/
theorem seg_outer_of_notin (year s wk dw : Nat) (name : String) (dx dy : Int)
    (V : Nat)
    (hfind : borderDirections.find? (fun p => p.1 == name) = some (name, dx, dy))
    (hV : ∀ e, visitHas V e = true ↔ e < daysInYear year)
    (hin : ¬((decide (0 ≤ ((wk : Int) + dx) * 7 + ((dw : Int) + dy) - s) &&
      decide (((wk : Int) + dx) * 7 + ((dw : Int) + dy) - s < (daysInYear year : Int)) &&
      visitHas V (((wk : Int) + dx) * 7 + ((dw : Int) + dy) - s).toNat) = true)) :
    onOuterBoundary year s ⟨wk, dw, name⟩ = true := by
  refine onOuterBoundary_of_not year s wk dw name dx dy hfind ?_
  intro h1 h2 h3 h4 h5 h6
  apply hin
  simp only [Bool.and_eq_true, decide_eq_true_eq]
  refine ⟨⟨h5, h6⟩, ?_⟩
  rw [hV]
  omega

/-- If a region consists of exactly the day indices of the year, every
border segment `createRegionBorder` emits for it lies on the grid's outer
boundary. -/
theorem createRegionBorder_outer (year s : Nat) (po : Nat → Option String)
    (r : List Nat) (hr : ∀ d, d ∈ r ↔ d < daysInYear year) :
    ∀ seg ∈ createRegionBorder year s po r, onOuterBoundary year s seg = true := by
  intro seg hseg
  have hrs : ∀ e, visitHas (r.foldl visitAdd 0) e = true ↔ e < daysInYear year := by
    intro e
    rw [visitHas_foldl_visitAdd, visitHas_zero]
    simp only [Bool.false_eq_true, false_or]
    exact hr e
  unfold createRegionBorder at hseg
  cases r with
  | nil => exact absurd hseg (List.not_mem_nil seg)
  | cons d0 tl =>
    cases hpo0 : po d0 with
    | none =>
      simp only [hpo0] at hseg
      exact absurd hseg (List.not_mem_nil seg)
    | some l0 =>
      simp only [hpo0] at hseg
      rw [List.mem_flatMap] at hseg
      obtain ⟨dayIndex, hday, hseg⟩ := hseg
      rw [List.mem_filterMap] at hseg
      obtain ⟨dir, hdir, hopt⟩ := hseg
      simp only [borderDirections, List.mem_cons, List.not_mem_nil, or_false]
        at hdir
      rcases hdir with rfl | rfl | rfl | rfl
      · dsimp only at hopt
        split at hopt
        · rename_i hg
          split at hopt
          · exact absurd hopt (by simp)
          · rename_i hin
            injection hopt with hopt
            subst hopt
            exact seg_outer_of_notin year s _ _ "top" 0 (-1) _ rfl hrs hin
        · rename_i hg
          injection hopt with hopt
          subst hopt
          exact seg_outer_of_invalid year s _ _ "top" 0 (-1) rfl hg
      · dsimp only at hopt
        split at hopt
        · rename_i hg
          split at hopt
          · exact absurd hopt (by simp)
          · rename_i hin
            injection hopt with hopt
            subst hopt
            exact seg_outer_of_notin year s _ _ "right" 1 0 _ rfl hrs hin
        · rename_i hg
          injection hopt with hopt
          subst hopt
          exact seg_outer_of_invalid year s _ _ "right" 1 0 rfl hg
      · dsimp only at hopt
        split at hopt
        · rename_i hg
          split at hopt
          · exact absurd hopt (by simp)
          · rename_i hin
            injection hopt with hopt
            subst hopt
            exact seg_outer_of_notin year s _ _ "bottom" 0 1 _ rfl hrs hin
        · rename_i hg
          injection hopt with hopt
          subst hopt
          exact seg_outer_of_invalid year s _ _ "bottom" 0 1 rfl hg
      · dsimp only at hopt
        split at hopt
        · rename_i hg
          split at hopt
          · exact absurd hopt (by simp)
          · rename_i hin
            injection hopt with hopt
            subst hopt
            exact seg_outer_of_notin year s _ _ "left" (-1) 0 _ rfl hrs hin
        · rename_i hg
          injection hopt with hopt
          subst hopt
          exact seg_outer_of_invalid year s _ _ "left" (-1) 0 rfl hg

/-! ### Claim theorems -/

/-- **C7.** Flood-fill region scenario: over the 7×53 grid of year 2024
(366 days, January 1st a Monday, `jan1Weekday 2024 = 1`) in which every day
belongs to a single labeled period, `findConnectedRegions` produces exactly
one region containing all days of the year (and only them), and
`createRegionBorder` emits border segments only on the grid's outer
boundary: every emitted segment's adjacent cell is not a day cell of the
year (no internal borders). -/
theorem flood_fill_region_scenario :
    ∃ r, findConnectedRegions (jan1Weekday 2024) 366 (fun _ => some "P") = [r] ∧
      (findConnectedRegions (jan1Weekday 2024) 366 (fun _ => some "P")).length = 1 ∧
      (∀ d, d < 366 → d ∈ r) ∧ (∀ d ∈ r, d < 366) ∧
      ∀ seg ∈ createRegionBorder 2024 (jan1Weekday 2024) (fun _ => some "P") r,
        onOuterBoundary 2024 (jan1Weekday 2024) seg = true := by
  have hw : jan1Weekday 2024 = 1 := by decide
  rw [hw]
  obtain ⟨r, hreg, hmem⟩ := findConnectedRegions_allP
  refine ⟨r, hreg, by rw [hreg]; rfl, fun d hd => (hmem d).2 hd,
    fun d hd => (hmem d).1 hd, ?_⟩
  have hdays : daysInYear 2024 = 366 := by decide
  refine createRegionBorder_outer 2024 1 _ r ?_
  intro d
  rw [hmem d, hdays]

/-- **C3 (code bug).** The spec and the comment at window.js lines 130-131
say pointer-down on a snapped window converts the box to its natural size
(width `fit-content`, height `auto`, maxWidth `none`).  In the code,
`this.clearSnapZone()` (line 128) nulls `this.snapZone` before the
`if (this.snapZone)` guard (line 132) is evaluated, so the conversion never
fires: for every starting snap zone and every starting dimension style, the
dimension styles after `handleMouseDown` are unchanged (while the slot is
released).  In particular a SNAPPED window keeps its slot-fixed dimensions. -/
theorem mousedown_styles_unchanged (sz : Option SnapZone) (st : BoxStyle) :
    handleMouseDownStyle sz st = (none, st) := by
  cases sz <;> rfl

/-- **C9.** Renderer idempotence/determinism: invoking
`initializeContributionGraphs` twice on the same container with identical
input mappings produces the same container content as invoking it once, and
the structural output (cell count, intensity level of every cell, region
border segments) is independent of the container's previous content. -/
theorem renderer_idempotent (periodOf : Nat → Nat → Option String)
    (data : Nat → Option (List Nat)) (prev prevOther : List YearRowOut) :
    initializeContributionGraphs
        (initializeContributionGraphs prev periodOf data) periodOf data =
      initializeContributionGraphs prev periodOf data ∧
    (initializeContributionGraphs prev periodOf data).map
        (fun row => row.cells.length) =
      (initializeContributionGraphs prevOther periodOf data).map
        (fun row => row.cells.length) ∧
    (initializeContributionGraphs prev periodOf data).map YearRowOut.cells =
      (initializeContributionGraphs prevOther periodOf data).map YearRowOut.cells ∧
    (initializeContributionGraphs prev periodOf data).map YearRowOut.borders =
      (initializeContributionGraphs prevOther periodOf data).map YearRowOut.borders :=
  ⟨rfl, rfl, rfl, rfl⟩

/-! ### Grid-cell lemmas for the missing-year renderer -/

theorem length_grid {α : Type} (f : Nat → Nat → α) :
    ((List.range 7).flatMap
      (fun dow => (List.range 53).map (fun week => f week dow))).length = 371 := by
  rw [List.length_flatMap]
  have hfun : (List.length ∘ fun dow : Nat =>
      (List.range 53).map (fun week => f week dow)) = fun _ : Nat => 53 := by
    funext dow
    simp [Function.comp, List.length_map, List.length_range]
  rw [hfun]
  rfl

theorem renderGridCells_length (s : Nat) (c : List Nat) :
    (renderGridCells s c).length = 371 :=
  length_grid _

theorem renderGridCells_level_zero (s : Nat) (c : List Nat)
    (hzero : ∀ x ∈ c, x = 0) :
    ∀ cell ∈ renderGridCells s c, cell.level = 0 := by
  intro cell hcell
  unfold renderGridCells at hcell
  rw [List.mem_flatMap] at hcell
  obtain ⟨dow, hdow, hcell⟩ := hcell
  rw [List.mem_map] at hcell
  obtain ⟨week, hweek, rfl⟩ := hcell
  dsimp only
  have hcount : (if (0 ≤ ((week * 7 + dow : Nat) : Int) - s &&
      ((week * 7 + dow : Nat) : Int) - s < c.length : Bool) then
        c.getD (((week * 7 + dow : Nat) : Int) - s).toNat 0 else 0) = 0 := by
    split
    · rw [List.getD_eq_getD_get?]
      cases hget : c.get? (((week * 7 + dow : Nat) : Int) - (s : Int)).toNat with
      | none => rfl
      | some v =>
        have hv : v = 0 := hzero v (List.get?_mem hget)
        rw [hv]
        rfl
    · rfl
  rw [hcount]
  rfl

/-- **C8 (counterexample).** The claim says that for a year absent from the
data mapping the renderer produces a grid with exactly `daysInYear year`
zero-level cells.  For the absent year 2023, `daysInYear 2023 = 365`, yet
all `7 × 53 = 371` grid cells carry level 0 (the out-of-year padding cells
default to contribution count 0 and therefore also get the level-0 class,
github-activity.js lines 336-347), so the count of zero-level cells is 371,
not 365. -/
theorem missing_year_zero_level_count :
    daysInYear 2023 = 365 ∧
    (renderGridCells (jan1Weekday 2023)
        (getYearContributionData 2023 (fun _ => none))).countP
      (fun c => c.level == 0) = 371 ∧
    (371 : Nat) ≠ 365 := by
  have hdata : getYearContributionData 2023 (fun _ => none) =
      List.replicate (daysInYear 2023) 0 := rfl
  have hzero : ∀ x ∈ getYearContributionData 2023 (fun _ => none), x = 0 := by
    rw [hdata]
    intro x hx
    exact List.eq_of_mem_replicate hx
  have hlevel := renderGridCells_level_zero (jan1Weekday 2023) _ hzero
  refine ⟨by decide, ?_, by decide⟩
  rw [← renderGridCells_length (jan1Weekday 2023)
    (getYearContributionData 2023 (fun _ => none))]
  rw [List.countP_eq_length]
  intro cell hcell
  rw [hlevel cell hcell]
  rfl

/-- **C8 (amended).** `daysInYear 2024 = 366` and `daysInYear 2023 = 365`,
and `daysInYear` follows the Gregorian rule
`(y % 4 == 0 && y % 100 != 0) || y % 400 == 0`.  For every year absent from
the data mapping the renderer never fails: it uses an all-zero data vector
of exactly `daysInYear year` entries and renders a full 7×53 grid of 371
cells, every one of which is zero-level (the `daysInYear year` in-year day
cells among them; the remaining padding cells also default to level 0). -/
theorem leap_year_missing_data (data : Nat → Option (List Nat)) (year : Nat)
    (habsent : data year = none) :
    daysInYear 2024 = 366 ∧ daysInYear 2023 = 365 ∧
    (∀ y, daysInYear y =
      if (y % 4 == 0 && y % 100 != 0) || y % 400 == 0 then 366 else 365) ∧
    getYearContributionData year data = List.replicate (daysInYear year) 0 ∧
    (getYearContributionData year data).length = daysInYear year ∧
    (renderGridCells (jan1Weekday year) (getYearContributionData year data)).length
      = 371 ∧
    ∀ cell ∈ renderGridCells (jan1Weekday year) (getYearContributionData year data),
      cell.level = 0 := by
  have hdata : getYearContributionData year data =
      List.replicate (daysInYear year) 0 := by
    unfold getYearContributionData
    rw [habsent]
  refine ⟨by decide, by decide, fun y => rfl, hdata, ?_, renderGridCells_length _ _, ?_⟩
  · rw [hdata, List.length_replicate]
  · apply renderGridCells_level_zero
    rw [hdata]
    intro x hx
    exact List.eq_of_mem_replicate hx

/-- Witness for `leap_year_missing_data` at the concrete absent year 2024
with an empty data mapping. -/
theorem leap_year_missing_data_witness : daysInYear 2024 = 366 :=
  (leap_year_missing_data (fun _ => none) 2024 rfl).1

/-! ### Unfolding lemmas for pointer-up snapping -/

theorem slotGet_left (s : WMState) : slotGet s .left = s.leftSlot := rfl

theorem slotGet_right (s : WMState) : slotGet s .right = s.rightSlot := rfl

theorem attemptSnap_eq {s : WMState} {i : Nat} {win : Win} (W H : ℚ)
    (h : getWin s i = some win) :
    attemptSnap s i W H =
      if win.x ≤ SNAP_THRESHOLD ∧ slotGet (clearSnapZone s i) .left = none then
        snapToSide (clearSnapZone s i) i .left W H
      else if W - win.w - SNAP_THRESHOLD ≤ win.x ∧
          slotGet (clearSnapZone s i) .right = none then
        snapToSide (clearSnapZone s i) i .right W H
      else clearSnapZone s i := by
  unfold attemptSnap
  rw [h]
  dsimp only
  rcases hL : slotGet (clearSnapZone s i) SnapZone.left with _ | la <;>
    rcases hR : slotGet (clearSnapZone s i) SnapZone.right with _ | ra <;>
      by_cases h1 : win.x ≤ SNAP_THRESHOLD <;>
        by_cases h3 : W - win.w - SNAP_THRESHOLD ≤ win.x <;>
          simp [isSnapZoneOccupied, hL, hR, h1, h3, ge_iff_le]

theorem getWin_snapToSide_self {s : WMState} {i : Nat} {win : Win}
    (h : getWin s i = some win) (z : SnapZone) (W H : ℚ) :
    getWin (snapToSide s i z W H) i = some (snapGeom win z W H) := by
  unfold snapToSide occupySnapZone
  rw [getWin_setSlot,
    @getWin_updateWin s i i (fun w => snapGeom w z W H) (fun w => rfl), h]
  obtain ⟨-, hid⟩ := getWin_mem h
  simp [hid]

theorem slotGet_snapToSide (s : WMState) (i : Nat) (z z' : SnapZone) (W H : ℚ) :
    slotGet (snapToSide s i z W H) z' = if z' = z then some i else slotGet s z' := by
  unfold snapToSide occupySnapZone
  rw [slotGet_setSlot, slotGet_updateWin]

theorem slotGet_clearSnapZone_some {s : WMState} {i : Nat} {win : Win}
    {z0 : SnapZone} (h : getWin s i = some win) (hz : win.snapZone = some z0)
    (z : SnapZone) :
    slotGet (clearSnapZone s i) z = if z = z0 then none else slotGet s z := by
  rw [clearSnapZone_of_some h hz, slotGet_updateWin]
  exact slotGet_setSlot s z0 z none

theorem winZone_resetDrag (t : WMState) (i : Nat) :
    winZone (updateWin t i (fun w => { w with isDragging := false })) i =
      winZone t i := by
  unfold winZone
  rw [@getWin_updateWin t i i (fun w => { w with isDragging := false })
    (fun w => rfl)]
  cases getWin t i with
  | none => rfl
  | some w => by_cases hc : w.id = i <;> simp [hc]

theorem winPos_resetDrag (t : WMState) (i : Nat) :
    winPos (updateWin t i (fun w => { w with isDragging := false })) i =
      winPos t i := by
  unfold winPos
  rw [@getWin_updateWin t i i (fun w => { w with isDragging := false })
    (fun w => rfl)]
  cases getWin t i with
  | none => rfl
  | some w => by_cases hc : w.id = i <;> simp [hc]

theorem handleMouseUp_eq {s : WMState} {i : Nat} {win : Win} (W H : ℚ)
    (h : getWin s i = some win) (hdrag : win.isDragging = true) :
    handleMouseUp s i W H =
      updateWin (attemptSnap s i W H) i (fun w => { w with isDragging := false }) := by
  unfold handleMouseUp
  rw [h]
  dsimp only
  rw [if_pos hdrag]

/-- **C2.** Snap-commit rule on pointer-up: for a drag that ends with
pointer-up (the window is mid-drag, hence holds no slot — pointer-down
released it), if the window's final left edge is within the 50 px snap
threshold of the left viewport edge and the LEFT slot is free, the window
becomes SNAPPED(LEFT), claims the slot, and moves to the slot rect; else if
it is within the threshold of the right side and RIGHT is free, the window
becomes SNAPPED(RIGHT) symmetrically; otherwise it stays FREE at its last
dragged position with both slots unchanged — in particular a window
released near an edge whose slot is occupied does not snap there. -/
theorem snap_commit_rule (s : WMState) (i : Nat) (win : Win) (W H : ℚ)
    (h : getWin s i = some win) (hdrag : win.isDragging = true)
    (hz : win.snapZone = none) :
    ((win.x ≤ SNAP_THRESHOLD ∧ s.leftSlot = none) →
      winZone (handleMouseUp s i W H) i = some .left ∧
      (handleMouseUp s i W H).leftSlot = some i ∧
      winPos (handleMouseUp s i W H) i = some (16, 32)) ∧
    (¬(win.x ≤ SNAP_THRESHOLD ∧ s.leftSlot = none) →
      (W - win.w - SNAP_THRESHOLD ≤ win.x ∧ s.rightSlot = none) →
      winZone (handleMouseUp s i W H) i = some .right ∧
      (handleMouseUp s i W H).rightSlot = some i ∧
      winPos (handleMouseUp s i W H) i = some (W / 2 + 8, 32)) ∧
    (¬(win.x ≤ SNAP_THRESHOLD ∧ s.leftSlot = none) →
      ¬(W - win.w - SNAP_THRESHOLD ≤ win.x ∧ s.rightSlot = none) →
      winZone (handleMouseUp s i W H) i = none ∧
      winPos (handleMouseUp s i W H) i = some (win.x, win.y) ∧
      (handleMouseUp s i W H).leftSlot = s.leftSlot ∧
      (handleMouseUp s i W H).rightSlot = s.rightSlot) := by
  have hclear : clearSnapZone s i = s := clearSnapZone_of_none h hz
  have hsnap := attemptSnap_eq W H h
  rw [hclear] at hsnap
  have hup := handleMouseUp_eq W H h hdrag
  refine ⟨?_, ?_, ?_⟩
  · rintro ⟨h1, h2⟩
    have hbranch : attemptSnap s i W H = snapToSide s i .left W H := by
      rw [hsnap, if_pos ⟨h1, by rw [slotGet_left]; exact h2⟩]
    refine ⟨?_, ?_, ?_⟩
    · rw [hup, winZone_resetDrag, hbranch]
      unfold winZone
      rw [getWin_snapToSide_self h]
      rfl
    · rw [hup, show (updateWin (attemptSnap s i W H) i
          (fun w => { w with isDragging := false })).leftSlot
          = (attemptSnap s i W H).leftSlot from rfl, hbranch]
      rw [← slotGet_left, slotGet_snapToSide]
      rfl
    · rw [hup, winPos_resetDrag, hbranch]
      unfold winPos
      rw [getWin_snapToSide_self h]
      simp [snapGeom]
  · intro hn1
    rintro ⟨h3, h4⟩
    have hc1 : ¬(win.x ≤ SNAP_THRESHOLD ∧ slotGet s .left = none) := by
      rw [slotGet_left]
      exact hn1
    have hbranch : attemptSnap s i W H = snapToSide s i .right W H := by
      rw [hsnap, if_neg hc1, if_pos ⟨h3, by rw [slotGet_right]; exact h4⟩]
    refine ⟨?_, ?_, ?_⟩
    · rw [hup, winZone_resetDrag, hbranch]
      unfold winZone
      rw [getWin_snapToSide_self h]
      rfl
    · rw [hup, show (updateWin (attemptSnap s i W H) i
          (fun w => { w with isDragging := false })).rightSlot
          = (attemptSnap s i W H).rightSlot from rfl, hbranch]
      rw [← slotGet_right, slotGet_snapToSide]
      rfl
    · rw [hup, winPos_resetDrag, hbranch]
      unfold winPos
      rw [getWin_snapToSide_self h]
      simp [snapGeom]
  · intro hn1 hn2
    have hc1 : ¬(win.x ≤ SNAP_THRESHOLD ∧ slotGet s .left = none) := by
      rw [slotGet_left]
      exact hn1
    have hc2 : ¬(W - win.w - SNAP_THRESHOLD ≤ win.x ∧ slotGet s .right = none) := by
      rw [slotGet_right]
      exact hn2
    have hbranch : attemptSnap s i W H = s := by
      rw [hsnap, if_neg hc1, if_neg hc2]
    refine ⟨?_, ?_, ?_, ?_⟩
    · rw [hup, winZone_resetDrag, hbranch]
      unfold winZone
      rw [h, Option.some_bind]
      exact hz
    · rw [hup, winPos_resetDrag, hbranch]
      unfold winPos
      rw [h]
      rfl
    · rw [hup, hbranch]
      rfl
    · rw [hup, hbranch]
      rfl

/-- Witness for `snap_commit_rule`: a freshly dragged window released at
`x = 0` with both slots free snaps into the LEFT slot. -/
theorem snap_commit_rule_witness :
    winZone (handleMouseUp
      ⟨[⟨0, none, 0, 0, 100, 100, 10, true⟩], none, none, 11, 1⟩ 0 800 600) 0
      = some SnapZone.left :=
  ((snap_commit_rule ⟨[⟨0, none, 0, 0, 100, 100, 10, true⟩], none, none, 11, 1⟩
    0 ⟨0, none, 0, 0, 100, 100, 10, true⟩ 800 600 (by decide) rfl rfl).1
    ⟨by norm_num [SNAP_THRESHOLD], rfl⟩).1

/-- **C10 (counterexample).** The claim says a window that held a slot and
is released within the threshold of that same slot's edge always re-commits
to that slot.  Counterexample: a window holding RIGHT (viewport width 100,
window width 60, released at x = 0) is within the right threshold
(0 ≥ 100 − 60 − 50 = −10), yet `attemptSnap` commits it to LEFT, because
the left branch is tested first, x = 0 is also within the left threshold,
and LEFT is free. -/
theorem self_resnap_counterexample :
    ((100 : ℚ) - 60 - SNAP_THRESHOLD ≤ 0 ∧
      winZone ⟨[⟨0, some SnapZone.right, 0, 0, 60, 40, 10, true⟩],
        none, some 0, 11, 1⟩ 0 = some SnapZone.right) ∧
    winZone (attemptSnap ⟨[⟨0, some SnapZone.right, 0, 0, 60, 40, 10, true⟩],
        none, some 0, 11, 1⟩ 0 100 200) 0 ≠ some SnapZone.right := by
  have h : getWin ⟨[⟨0, some SnapZone.right, 0, 0, 60, 40, 10, true⟩],
      none, some 0, 11, 1⟩ 0 = some ⟨0, some SnapZone.right, 0, 0, 60, 40, 10, true⟩ :=
    by decide
  have hz : (⟨0, some SnapZone.right, 0, 0, 60, 40, 10, true⟩ : Win).snapZone
      = some SnapZone.right := rfl
  have hfree : slotGet (clearSnapZone ⟨[⟨0, some SnapZone.right, 0, 0, 60, 40, 10, true⟩],
      none, some 0, 11, 1⟩ 0) .left = none := by
    rw [slotGet_clearSnapZone_some h hz]
    rfl
  have hbranch := attemptSnap_eq 100 200 h
  rw [if_pos ⟨by show (0 : ℚ) ≤ SNAP_THRESHOLD; norm_num [SNAP_THRESHOLD], hfree⟩]
    at hbranch
  have hg1 : getWin (clearSnapZone ⟨[⟨0, some SnapZone.right, 0, 0, 60, 40, 10, true⟩],
        none, some 0, 11, 1⟩ 0) 0
      = some ⟨0, none, 0, 0, 60, 40, 10, true⟩ := by
    rw [getWin_clearSnapZone_self, h]
    rfl
  refine ⟨⟨by norm_num [SNAP_THRESHOLD], by decide⟩, ?_⟩
  rw [hbranch]
  unfold winZone
  rw [getWin_snapToSide_self hg1]
  simp [snapGeom]

/-- **C10 (amended).** Because `attemptSnap` releases the dragged window's
own slot (`clearSnapZone`) before evaluating slot occupancy, the occupancy
check can only ever block snapping into a slot held by a different window,
never the window's own former slot.  A window that held LEFT and is
released within the left threshold always re-commits to LEFT.  A window
that held RIGHT and is released within the right threshold re-commits to
RIGHT unless the release position is simultaneously within the left
threshold with LEFT free, in which case the left branch takes precedence
and the window snaps LEFT instead. -/
theorem self_resnap (s : WMState) (i : Nat) (win : Win) (W H : ℚ)
    (h : getWin s i = some win) :
    (win.snapZone = some .left → win.x ≤ SNAP_THRESHOLD →
      winZone (attemptSnap s i W H) i = some .left ∧
      slotGet (attemptSnap s i W H) .left = some i) ∧
    (win.snapZone = some .right → W - win.w - SNAP_THRESHOLD ≤ win.x →
      ¬(win.x ≤ SNAP_THRESHOLD ∧ s.leftSlot = none) →
      winZone (attemptSnap s i W H) i = some .right ∧
      slotGet (attemptSnap s i W H) .right = some i) := by
  have hsnap := attemptSnap_eq W H h
  constructor
  · intro hz hx
    have hfree : slotGet (clearSnapZone s i) .left = none := by
      rw [slotGet_clearSnapZone_some h hz]
      rfl
    have hbranch : attemptSnap s i W H =
        snapToSide (clearSnapZone s i) i .left W H := by
      rw [hsnap, if_pos ⟨hx, hfree⟩]
    have hg1 : getWin (clearSnapZone s i) i = some { win with snapZone := none } := by
      rw [getWin_clearSnapZone_self, h]
      rfl
    refine ⟨?_, ?_⟩
    · rw [hbranch]
      unfold winZone
      rw [getWin_snapToSide_self hg1]
      rfl
    · rw [hbranch, slotGet_snapToSide]
      rfl
  · intro hz hx hnleft
    have hfreeR : slotGet (clearSnapZone s i) .right = none := by
      rw [slotGet_clearSnapZone_some h hz]
      rfl
    have hleft : slotGet (clearSnapZone s i) .left = slotGet s .left := by
      rw [slotGet_clearSnapZone_some h hz]
      rfl
    have hc1 : ¬(win.x ≤ SNAP_THRESHOLD ∧
        slotGet (clearSnapZone s i) .left = none) := by
      rw [hleft, slotGet_left]
      exact hnleft
    have hbranch : attemptSnap s i W H =
        snapToSide (clearSnapZone s i) i .right W H := by
      rw [hsnap, if_neg hc1, if_pos ⟨hx, hfreeR⟩]
    have hg1 : getWin (clearSnapZone s i) i = some { win with snapZone := none } := by
      rw [getWin_clearSnapZone_self, h]
      rfl
    refine ⟨?_, ?_⟩
    · rw [hbranch]
      unfold winZone
      rw [getWin_snapToSide_self hg1]
      rfl
    · rw [hbranch, slotGet_snapToSide]
      rfl

/-- Witness for `self_resnap`: a window holding LEFT, released at `x = 0`,
re-commits to LEFT. -/
theorem self_resnap_witness :
    winZone (attemptSnap ⟨[⟨0, some SnapZone.left, 0, 0, 100, 100, 10, true⟩],
      some 0, none, 11, 1⟩ 0 800 600) 0 = some SnapZone.left :=
  ((self_resnap ⟨[⟨0, some SnapZone.left, 0, 0, 100, 100, 10, true⟩],
      some 0, none, 11, 1⟩ 0 ⟨0, some SnapZone.left, 0, 0, 100, 100, 10, true⟩
      800 600 (by decide)).1 rfl (by norm_num [SNAP_THRESHOLD])).1

/-- **C6 (counterexample).** The claim says an indicator is shown during
pointer-move iff releasing at that position would commit the snap to that
side.  Counterexample: a window as wide as the viewport (width 100 = W)
dragged to x = 0, both slots free: `maxX = 0`, so the position is within
both thresholds; the right indicator is shown (proximal and RIGHT free),
but releasing commits LEFT, not RIGHT. -/
theorem preview_commit_counterexample :
    (updateSnapIndicators ⟨[⟨0, none, 0, 0, 100, 50, 10, true⟩],
        none, none, 11, 1⟩ 0 ((100 : ℚ) - 100)).2 = true ∧
    winZone (attemptSnap ⟨[⟨0, none, 0, 0, 100, 50, 10, true⟩],
        none, none, 11, 1⟩ 0 100 200) 0 ≠ some SnapZone.right := by
  constructor
  · unfold updateSnapIndicators
    rw [Bool.and_eq_true, decide_eq_true_eq]
    refine ⟨by norm_num [SNAP_THRESHOLD], rfl⟩
  · have h : getWin ⟨[⟨0, none, 0, 0, 100, 50, 10, true⟩],
        none, none, 11, 1⟩ 0 = some ⟨0, none, 0, 0, 100, 50, 10, true⟩ := by decide
    have hz : (⟨0, none, 0, 0, 100, 50, 10, true⟩ : Win).snapZone = none := rfl
    have hclear := clearSnapZone_of_none h hz
    have hbranch := attemptSnap_eq 100 200 h
    rw [hclear] at hbranch
    rw [if_pos ⟨by show (0 : ℚ) ≤ SNAP_THRESHOLD; norm_num [SNAP_THRESHOLD], rfl⟩]
      at hbranch
    rw [hbranch]
    unfold winZone
    rw [getWin_snapToSide_self h]
    simp [snapGeom]

/-- **C6 (amended).** Preview/commit threshold consistency: both the
pointer-move indicator (`updateSnapIndicators`) and the pointer-up commit
(`attemptSnap`) use the same fixed 50 px threshold on the window's left
edge, and both require the corresponding slot to be free.  For the LEFT
side the indicator is shown iff releasing at that position commits
SNAPPED(LEFT), unconditionally.  For the RIGHT side the equivalence holds
whenever the position is not simultaneously within the left threshold with
LEFT free; in that overlap case the right indicator may be shown although
release commits LEFT (see the counterexample). -/
theorem preview_commit_consistency (s : WMState) (i : Nat) (win : Win)
    (W H : ℚ) (h : getWin s i = some win) (hz : win.snapZone = none) :
    ((updateSnapIndicators s win.x (W - win.w)).1 = true ↔
      winZone (attemptSnap s i W H) i = some .left) ∧
    (¬(win.x ≤ SNAP_THRESHOLD ∧ s.leftSlot = none) →
      ((updateSnapIndicators s win.x (W - win.w)).2 = true ↔
        winZone (attemptSnap s i W H) i = some .right)) := by
  have hclear : clearSnapZone s i = s := clearSnapZone_of_none h hz
  have hsnap := attemptSnap_eq W H h
  rw [hclear] at hsnap
  have hzoneL : (win.x ≤ SNAP_THRESHOLD ∧ s.leftSlot = none) →
      winZone (attemptSnap s i W H) i = some .left := by
    rintro ⟨h1, h2⟩
    rw [hsnap, if_pos ⟨h1, by rw [slotGet_left]; exact h2⟩]
    unfold winZone
    rw [getWin_snapToSide_self h]
    rfl
  have hzoneR : ¬(win.x ≤ SNAP_THRESHOLD ∧ s.leftSlot = none) →
      (W - win.w - SNAP_THRESHOLD ≤ win.x ∧ s.rightSlot = none) →
      winZone (attemptSnap s i W H) i = some .right := by
    intro hn1
    rintro ⟨h3, h4⟩
    rw [hsnap, if_neg (by rw [slotGet_left]; exact hn1),
      if_pos ⟨h3, by rw [slotGet_right]; exact h4⟩]
    unfold winZone
    rw [getWin_snapToSide_self h]
    rfl
  have hzoneNone : ¬(win.x ≤ SNAP_THRESHOLD ∧ s.leftSlot = none) →
      ¬(W - win.w - SNAP_THRESHOLD ≤ win.x ∧ s.rightSlot = none) →
      winZone (attemptSnap s i W H) i = none := by
    intro hn1 hn2
    rw [hsnap, if_neg (by rw [slotGet_left]; exact hn1),
      if_neg (by rw [slotGet_right]; exact hn2)]
    unfold winZone
    rw [h, Option.some_bind]
    exact hz
  constructor
  · constructor
    · intro hind
      unfold updateSnapIndicators at hind
      rw [Bool.and_eq_true, decide_eq_true_eq] at hind
      obtain ⟨h1, h2⟩ := hind
      have h2' : s.leftSlot = none := by
        rw [Bool.not_eq_true'] at h2
        unfold isSnapZoneOccupied at h2
        rw [slotGet_left] at h2
        exact Option.not_isSome_iff_eq_none.1 (by rw [h2]; exact Bool.false_ne_true)
      exact hzoneL ⟨h1, h2'⟩
    · intro hzone
      by_cases hc1 : win.x ≤ SNAP_THRESHOLD ∧ s.leftSlot = none
      · unfold updateSnapIndicators
        rw [Bool.and_eq_true, decide_eq_true_eq]
        refine ⟨hc1.1, ?_⟩
        rw [Bool.not_eq_true']
        unfold isSnapZoneOccupied
        rw [slotGet_left, hc1.2]
        rfl
      · exfalso
        by_cases hc2 : W - win.w - SNAP_THRESHOLD ≤ win.x ∧ s.rightSlot = none
        · rw [hzoneR hc1 hc2] at hzone
          exact absurd hzone (by simp)
        · rw [hzoneNone hc1 hc2] at hzone
          exact absurd hzone (by simp)
  · intro hn1
    constructor
    · intro hind
      unfold updateSnapIndicators at hind
      rw [Bool.and_eq_true, decide_eq_true_eq, ge_iff_le] at hind
      obtain ⟨h3, h4⟩ := hind
      have h4' : s.rightSlot = none := by
        rw [Bool.not_eq_true'] at h4
        unfold isSnapZoneOccupied at h4
        rw [slotGet_right] at h4
        exact Option.not_isSome_iff_eq_none.1 (by rw [h4]; exact Bool.false_ne_true)
      exact hzoneR hn1 ⟨by linarith, h4'⟩
    · intro hzone
      by_cases hc2 : W - win.w - SNAP_THRESHOLD ≤ win.x ∧ s.rightSlot = none
      · unfold updateSnapIndicators
        rw [Bool.and_eq_true, decide_eq_true_eq, ge_iff_le]
        refine ⟨by linarith [hc2.1], ?_⟩
        rw [Bool.not_eq_true']
        unfold isSnapZoneOccupied
        rw [slotGet_right, hc2.2]
        rfl
      · exfalso
        rw [hzoneNone hn1 hc2] at hzone
        exact absurd hzone (by simp)

/-- Witness for `preview_commit_consistency`: a dragged window at `x = 200`
in an 800 px viewport, both slots free: neither indicator is shown and
release commits no snap. -/
theorem preview_commit_consistency_witness :
    ((updateSnapIndicators ⟨[⟨0, none, 200, 0, 100, 100, 10, true⟩],
        none, none, 11, 1⟩ (200 : ℚ) ((800 : ℚ) - 100)).1 = true ↔
      winZone (attemptSnap ⟨[⟨0, none, 200, 0, 100, 100, 10, true⟩],
        none, none, 11, 1⟩ 0 800 600) 0 = some SnapZone.left) :=
  (preview_commit_consistency ⟨[⟨0, none, 200, 0, 100, 100, 10, true⟩],
    none, none, 11, 1⟩ 0 ⟨0, none, 200, 0, 100, 100, 10, true⟩ 800 600
    (by decide) rfl).1

theorem getWin_updateWin_self {t : WMState} {i : Nat} {f : Win → Win} {u : Win}
    (hfid : ∀ w, (f w).id = w.id) (h : getWin t i = some u) (hu : u.id = i) :
    getWin (updateWin t i f) i = some (f u) := by
  rw [@getWin_updateWin t i i f hfid, h]
  simp [hu]

theorem dragMove_inViewport (w : Win) (W H px py : ℚ)
    (hwW : w.w ≤ W) (hhH : w.h ≤ H) :
    InViewport (dragMove w W H px py) W H := by
  unfold dragMove constrainToViewport InViewport
  dsimp only
  refine ⟨le_max_left _ _, max_le ?_ (min_le_right _ _), le_max_left _ _,
    max_le ?_ (min_le_right _ _)⟩
  · linarith
  · linarith

theorem foldl_dragMove_inViewport (W H : ℚ) : ∀ ps : List (ℚ × ℚ), ps ≠ [] →
    ∀ w : Win, w.w ≤ W → w.h ≤ H →
    InViewport (ps.foldl (fun u p => dragMove u W H p.1 p.2) w) W H := by
  intro ps
  induction ps with
  | nil => intro h; exact absurd rfl h
  | cons p rest ih =>
    intro _ w hwW hhH
    rcases rest with _ | ⟨q, rest2⟩
    · exact dragMove_inViewport w W H p.1 p.2 hwW hhH
    · exact ih (by simp) (dragMove w W H p.1 p.2) hwW hhH

/-- **C4.** Clamping invariant: for every drag sequence (any pointer-move
candidate positions, any window size not exceeding the viewport), every
committed position lies in `[0, viewport − size]` on both axes — the
position after each pointer-move (any nonempty fold of `dragMove` clamp
steps), and the one in effect after pointer-up, whether the window snaps to
a slot rect or stays free at its last dragged position. -/
theorem clamping_invariant (s : WMState) (i : Nat) (win : Win) (W H : ℚ)
    (hget : getWin s i = some win)
    (hw0 : 0 ≤ win.w) (hwW : win.w ≤ W) (hh0 : 0 ≤ win.h) (hhH : win.h ≤ H) :
    (∀ ps : List (ℚ × ℚ), ps ≠ [] →
        InViewport (ps.foldl (fun u p => dragMove u W H p.1 p.2) win) W H) ∧
    (InViewport win W H → ∀ w', getWin (handleMouseUp s i W H) i = some w' →
        InViewport w' W H) := by
  refine ⟨fun ps hne => foldl_dragMove_inViewport W H ps hne win hwW hhH, ?_⟩
  intro hiv w' hw'
  have hW : (0 : ℚ) ≤ W := le_trans hw0 hwW
  have hH : (0 : ℚ) ≤ H := le_trans hh0 hhH
  obtain ⟨-, hid⟩ := getWin_mem hget
  cases hdrag : win.isDragging with
  | false =>
    unfold handleMouseUp at hw'
    rw [hget] at hw'
    dsimp only at hw'
    rw [hdrag, if_neg Bool.false_ne_true, hget] at hw'
    obtain rfl := Option.some.inj hw'
    exact hiv
  | true =>
    rw [handleMouseUp_eq W H hget hdrag, attemptSnap_eq W H hget] at hw'
    have hgc : getWin (clearSnapZone s i) i =
        some { win with snapZone := none } := by
      rw [getWin_clearSnapZone_self, hget]
      rfl
    split at hw'
    · rw [@getWin_updateWin_self (snapToSide (clearSnapZone s i) i SnapZone.left W H)
        i (fun w => { w with isDragging := false }) _ (fun w => rfl)
        (getWin_snapToSide_self hgc SnapZone.left W H) hid] at hw'
      obtain rfl := Option.some.inj hw'
      show (0 : ℚ) ≤ 16 ∧ (16 : ℚ) ≤ W - (W / 2 - 24) ∧
        (0 : ℚ) ≤ 32 ∧ (32 : ℚ) ≤ H - (H - 64)
      refine ⟨by norm_num, by linarith, by norm_num, by linarith⟩
    · split at hw'
      · rw [@getWin_updateWin_self (snapToSide (clearSnapZone s i) i SnapZone.right W H)
          i (fun w => { w with isDragging := false }) _ (fun w => rfl)
          (getWin_snapToSide_self hgc SnapZone.right W H) hid] at hw'
        obtain rfl := Option.some.inj hw'
        show (0 : ℚ) ≤ W / 2 + 8 ∧ W / 2 + 8 ≤ W - (W / 2 - 24) ∧
          (0 : ℚ) ≤ 32 ∧ (32 : ℚ) ≤ H - (H - 64)
        refine ⟨by linarith, by linarith, by norm_num, by linarith⟩
      · rw [@getWin_updateWin_self (clearSnapZone s i) i
          (fun w => { w with isDragging := false }) _ (fun w => rfl) hgc hid] at hw'
        obtain rfl := Option.some.inj hw'
        exact hiv

/-- Witness for C4: a 100 × 100 window in an 800 × 600 viewport, dragged with
candidate position (500, 300), is committed inside the viewport. -/
theorem clamping_invariant_witness :
    InViewport ([((500 : ℚ), (300 : ℚ))].foldl
      (fun u p => dragMove u 800 600 p.1 p.2)
      ⟨0, none, 0, 0, 100, 100, 10, true⟩) 800 600 :=
  (clamping_invariant ⟨[⟨0, none, 0, 0, 100, 100, 10, true⟩], none, none, 11, 1⟩
      0 ⟨0, none, 0, 0, 100, 100, 10, true⟩ 800 600 (by decide)
      (by norm_num) (by norm_num) (by norm_num) (by norm_num)).1
    [(500, 300)] (by simp)

/-- **C1.** Slot-table exclusivity and consistency: in every state reachable
from page load by any sequence of the window-system operations
(`createWindow`, mouse down/move/up — hence `attemptSnap`/`snapToSide` and
`clearSnapZone` —, `center`, `remove`, `bringToFront`), each snap slot is
held by at most one window in the registry, each window id owns at most one
slot, and the manager's slot table is inverse to the windows' `snapZone`
fields: `slotGet s z = some i` iff the registry holds a window with id `i`
whose `snapZone` is `some z`. -/
theorem slot_table_consistency (ops : List WMOp) :
    (∀ z : SnapZone, ∀ w ∈ (run ops).windows, ∀ w' ∈ (run ops).windows,
        w.snapZone = some z → w'.snapZone = some z → w = w') ∧
    (∀ z z' : SnapZone, ∀ i : Nat,
        slotGet (run ops) z = some i → slotGet (run ops) z' = some i → z = z') ∧
    (∀ (z : SnapZone) (i : Nat), slotGet (run ops) z = some i ↔
        ∃ w ∈ (run ops).windows, w.id = i ∧ w.snapZone = some z) := by
  have hs := inv_run ops
  refine ⟨?_, ?_, hs.slot_inv⟩
  · intro z w hw w' hw' hz hz'
    have h1 := (hs.slot_inv z w.id).2 ⟨w, hw, rfl, hz⟩
    have h2 := (hs.slot_inv z w'.id).2 ⟨w', hw', rfl, hz'⟩
    rw [h1] at h2
    exact hs.uniq hw hw' (Option.some.inj h2)
  · intro z z' i h1 h2
    obtain ⟨w, hw, hid, hz⟩ := (hs.slot_inv z i).1 h1
    obtain ⟨w', hw', hid', hz'⟩ := (hs.slot_inv z' i).1 h2
    have hww : w = w' := hs.uniq hw hw' (hid.trans hid'.symm)
    rw [hww, hz'] at hz
    exact (Option.some.inj hz).symm

/-- Witness for C1: after creating a window and dragging it (released at its
initial position `x = 0`, near the left edge of an 800 × 600 viewport), the
LEFT slot is owned by that window — obtained through the inverse direction of
the slot-table consistency theorem. -/
theorem slot_table_consistency_witness :
    slotGet (run [WMOp.create 0 0 100 100, WMOp.mouseDown 0,
      WMOp.mouseUp 0 800 600]) SnapZone.left = some 0 := by
  have hz : winZone (run [WMOp.create 0 0 100 100, WMOp.mouseDown 0,
      WMOp.mouseUp 0 800 600]) 0 = some SnapZone.left := rfl
  unfold winZone at hz
  rcases hgw : getWin (run [WMOp.create 0 0 100 100, WMOp.mouseDown 0,
      WMOp.mouseUp 0 800 600]) 0 with _ | w0
  · rw [hgw] at hz
    exact absurd hz (by simp)
  · rw [hgw] at hz
    replace hz : w0.snapZone = some SnapZone.left := hz
    obtain ⟨hmem, hid⟩ := getWin_mem hgw
    exact ((slot_table_consistency [WMOp.create 0 0 100 100, WMOp.mouseDown 0,
      WMOp.mouseUp 0 800 600]).2.2 SnapZone.left 0).2 ⟨w0, hmem, hid, hz⟩

theorem nextZIndex_clearSnapZone (s : WMState) (i : Nat) :
    (clearSnapZone s i).nextZIndex = s.nextZIndex := by
  cases h : getWin s i with
  | none => rw [clearSnapZone_not_found h]
  | some win =>
    cases hz : win.snapZone with
    | none => rw [clearSnapZone_of_none h hz]
    | some z =>
      rw [clearSnapZone_of_some h hz, nextZIndex_updateWin,
        nextZIndex_freeSnapZone]

theorem nextZIndex_attemptSnap (s : WMState) (i : Nat) (W H : ℚ) :
    (attemptSnap s i W H).nextZIndex = s.nextZIndex := by
  unfold attemptSnap
  cases h : getWin s i with
  | none => rfl
  | some win =>
    dsimp only
    split
    · unfold snapToSide occupySnapZone
      rw [nextZIndex_setSlot, nextZIndex_updateWin, nextZIndex_clearSnapZone]
    · split
      · unfold snapToSide occupySnapZone
        rw [nextZIndex_setSlot, nextZIndex_updateWin, nextZIndex_clearSnapZone]
      · exact nextZIndex_clearSnapZone s i

theorem nextZIndex_handleMouseDown (s : WMState) (i : Nat) :
    (handleMouseDown s i).nextZIndex = s.nextZIndex := by
  unfold handleMouseDown
  rw [nextZIndex_clearSnapZone, nextZIndex_updateWin]

theorem nextZIndex_handleMouseMove (s : WMState) (i : Nat) (px py W H : ℚ) :
    (handleMouseMove s i px py W H).nextZIndex = s.nextZIndex := by
  unfold handleMouseMove
  cases h : getWin s i with
  | none => rfl
  | some win =>
    dsimp only
    split
    · rw [nextZIndex_updateWin]
    · rfl

theorem nextZIndex_handleMouseUp (s : WMState) (i : Nat) (W H : ℚ) :
    (handleMouseUp s i W H).nextZIndex = s.nextZIndex := by
  unfold handleMouseUp
  cases h : getWin s i with
  | none => rfl
  | some win =>
    dsimp only
    split
    · rw [nextZIndex_updateWin, nextZIndex_attemptSnap]
    · rfl

theorem nextZIndex_step_le (s : WMState) (op : WMOp) :
    s.nextZIndex ≤ (step s op).nextZIndex := by
  cases op with
  | create x y w h => exact Nat.le_succ _
  | mouseDown i => exact le_of_eq (nextZIndex_handleMouseDown s i).symm
  | mouseMove i px py W H =>
    exact le_of_eq (nextZIndex_handleMouseMove s i px py W H).symm
  | mouseUp i W H => exact le_of_eq (nextZIndex_handleMouseUp s i W H).symm
  | center i => exact le_of_eq (nextZIndex_clearSnapZone s i).symm
  | remove i => exact le_of_eq (nextZIndex_clearSnapZone s i).symm
  | front i =>
    show s.nextZIndex ≤ (bringToFront s i).nextZIndex
    unfold bringToFront
    rw [nextZIndex_updateWin]
    exact Nat.le_succ _

theorem nextZIndex_foldl_le (ops : List WMOp) : ∀ s : WMState,
    s.nextZIndex ≤ (ops.foldl step s).nextZIndex := by
  induction ops with
  | nil => intro s; exact le_refl _
  | cons op rest ih =>
    intro s
    exact le_trans (nextZIndex_step_le s op) (ih (step s op))

/-- **C5.** `bringToFront` is strictly monotonic: across any two calls in
sequence (interleaved with arbitrary operations, in particular
`createWindow` calls), the stack value assigned by the later call — the
`nextZIndex` of the state it runs in — is strictly greater than the one
assigned by the earlier call; after `bringToFront(a)` the window `a` has the
maximum stack value among all windows in the registry; and the stack counter
never decreases across any continuation. -/
theorem bring_to_front_monotonic (ops1 ops2 : List WMOp) (a : Nat) :
    ((run (ops1 ++ WMOp.front a :: ops2)).nextZIndex > (run ops1).nextZIndex) ∧
    (∀ wa, getWin (run (ops1 ++ [WMOp.front a])) a = some wa →
        ∀ w ∈ (run (ops1 ++ [WMOp.front a])).windows, w.z ≤ wa.z) ∧
    (∀ ops3 : List WMOp,
        (run ops1).nextZIndex ≤ (run (ops1 ++ ops3)).nextZIndex) := by
  refine ⟨?_, ?_, ?_⟩
  · have h1 : run (ops1 ++ WMOp.front a :: ops2) =
        ops2.foldl step (bringToFront (run ops1) a) := by
      show (ops1 ++ WMOp.front a :: ops2).foldl step initState = _
      rw [List.foldl_append]
      rfl
    have h2 : (bringToFront (run ops1) a).nextZIndex =
        (run ops1).nextZIndex + 1 := by
      unfold bringToFront
      rw [nextZIndex_updateWin]
    have h3 := nextZIndex_foldl_le ops2 (bringToFront (run ops1) a)
    rw [h1]
    omega
  · intro wa hwa w hw
    have hrun : run (ops1 ++ [WMOp.front a]) = bringToFront (run ops1) a := by
      show (ops1 ++ [WMOp.front a]).foldl step initState = _
      rw [List.foldl_append]
      rfl
    rw [hrun] at hwa hw
    have hs := inv_run ops1
    unfold bringToFront at hwa hw
    rw [@getWin_updateWin { run ops1 with nextZIndex := (run ops1).nextZIndex + 1 }
      a a (fun w => { w with z := (run ops1).nextZIndex }) (fun w => rfl)] at hwa
    have hgt : getWin { run ops1 with nextZIndex := (run ops1).nextZIndex + 1 } a
        = getWin (run ops1) a := rfl
    rw [hgt] at hwa
    cases hg : getWin (run ops1) a with
    | none =>
      rw [hg] at hwa
      exact absurd hwa (by simp)
    | some u =>
      rw [hg] at hwa
      obtain ⟨humem, huid⟩ := getWin_mem hg
      replace hwa : some (if u.id = a then { u with z := (run ops1).nextZIndex }
          else u) = some wa := hwa
      rw [if_pos huid] at hwa
      obtain rfl := Option.some.inj hwa
      rw [mem_updateWin] at hw
      obtain ⟨v, hv, rfl⟩ := hw
      have hvmem : v ∈ (run ops1).windows := hv
      by_cases hva : v.id = a
      · rw [if_pos hva]
      · rw [if_neg hva]
        exact Nat.le_of_lt (hs.zBound v hvmem)
  · intro ops3
    show ((ops1 ++ ops3).foldl step initState).nextZIndex ≥ _
    rw [List.foldl_append]
    exact nextZIndex_foldl_le ops3 _

/-- Witness for C5: after creating two windows and raising the first, the
raised window's stack value 12 bounds the other's 11. -/
theorem bring_to_front_monotonic_witness :
    (⟨1, none, 1, 1, 5, 5, 11, false⟩ : Win).z ≤
      (⟨0, none, 0, 0, 5, 5, 12, false⟩ : Win).z :=
  (bring_to_front_monotonic [WMOp.create 0 0 5 5, WMOp.create 1 1 5 5] [] 0).2.1
    ⟨0, none, 0, 0, 5, 5, 12, false⟩ (by decide)
    ⟨1, none, 1, 1, 5, 5, 11, false⟩ (by decide)

end Homepage
